import Mathlib

/-!
# Verification of the ESP32 BLE macro keypad core

A shallow embedding of the input-to-report pipeline of the ESP32-C3 BLE
keypad firmware (`key.c`, `battery.c`, `sys.cpp`, `main.cpp`).

* Machine floats of `battery.c` are modelled as exact rationals (`ℚ`);
  `uint8_t` truncation of a nonnegative value is `Int.toNat ∘ Int.floor`.
* `millis()` timestamps are natural numbers; the `uint32_t` subtraction
  `millis() - start` is natural subtraction (no wrap-around, matching a
  device uptime below 2^32 ms).
* The two execution contexts (the 100 Hz `KEY_Detect` interrupt and the
  cooperative `loop`) are modelled as atomic events interleaved
  arbitrarily in a trace; calls to `keybrick.send2Ble` are the observable
  output of an event.
-/

namespace Keypad

/-! ## Battery gauge (`battery.c`) -/

/-- The Li-Po discharge lookup table `Lipoly_LUT` of `battery.c`:
`{voltage, percentage}` pairs, sorted by strictly descending voltage. -/
def Lipoly_LUT : List (ℚ × ℕ) :=
  [ (415/100, 100), (405/100, 95), (397/100, 90), (390/100, 80),
    (380/100, 70), (373/100, 60), (367/100, 50), (361/100, 40),
    (356/100, 30), (350/100, 20), (342/100, 10), (335/100, 5),
    (325/100, 0) ]

/-- The interpolation formula of `BAT_GetPercentage`:
`pLow + (v - vLow) / (vHigh - vLow) * (pHigh - pLow)`. -/
def interpValue (vHigh vLow : ℚ) (pHigh pLow : ℕ) (v : ℚ) : ℚ :=
  (pLow : ℚ) + (v - vLow) / (vHigh - vLow) * ((pHigh : ℚ) - (pLow : ℚ))

/-- The bracketing scan loop of `BAT_GetPercentage`: walk consecutive pairs
of the table; on the first interval with `vLow < v ≤ vHigh` return the
interpolated percentage truncated to an integer (`some`); `none` models
falling out of the loop. -/
def lutScanOpt : List (ℚ × ℕ) → ℚ → Option ℕ
  | (vH, pH) :: (vL, pL) :: rest, v =>
      if v ≤ vH ∧ vL < v then some (Int.toNat ⌊interpValue vH vL pH pL v⌋)
      else lutScanOpt ((vL, pL) :: rest) v
  | _, _ => none

/-- The scan followed by the trailing `return 0` of `BAT_GetPercentage`. -/
def lutScan (l : List (ℚ × ℕ)) (v : ℚ) : ℕ :=
  (lutScanOpt l v).getD 0

/-- `BAT_GetPercentage` of `battery.c`, as a function of the sampled
voltage `BAT_Voltage`: clamp at the first / last table entry, otherwise
scan for the bracketing interval and interpolate. -/
def BAT_GetPercentage (v : ℚ) : ℕ :=
  if (Lipoly_LUT.get ⟨0, by decide⟩).1 ≤ v then 100
  else if v ≤ (Lipoly_LUT.get ⟨12, by decide⟩).1 then 0
  else lutScan Lipoly_LUT v

/-- Index `i` brackets `v` in table `l`: `l[i+1].voltage < v ≤ l[i].voltage`. -/
def bracketAt (l : List (ℚ × ℕ)) (v : ℚ) (i : ℕ) : Prop :=
  ∃ h : i + 1 < l.length,
    v ≤ (l.get ⟨i, Nat.lt_of_succ_lt h⟩).1 ∧ (l.get ⟨i + 1, h⟩).1 < v

/-- The table well-formedness used throughout: strictly descending in
voltage and non-increasing in percentage. -/
def lutDesc (a b : ℚ × ℕ) : Prop := b.1 < a.1 ∧ b.2 ≤ a.2

/-! ## Input scanner, dispatcher and mode controller
(`key.c`, `main.cpp`, `sys.cpp`)

The per-button record of `key.h` plus the parallel global arrays of
`key.c`.  The double GPIO read with the 5 ms settle delay of `KEY_Update`
is modelled as a single debounced level per button per call; the `bool`
return value of `KEY_Update` feeds only the display-timeout logic and is
dropped.  The countdown-timer half of `KEY_Detect` and the UI handlers
`TIMER_Set` / `METRONOME_Set` / `TIMER_Display` operate exclusively on the
out-of-scope timer / metronome / display state and therefore do not appear
in the core state.  Calls to `keybrick.send2Ble` are the observable
output, tagged with their call site: `Emit.key i b` for the per-button
dispatch of `KEY_Send`, `Emit.rel` for every `send2Ble(release)` of the
all-zero buffer. -/

/-- `KeyState` of `key.h`. -/
structure KeyState where
  isPressed : Bool
  shouldSend : Bool
  isReleased : Bool
deriving DecidableEq

/-- `SystemMode` of `sys.h` (values used by `sys.cpp` / `main.cpp`). -/
inductive SystemMode where
  | MODE_NORMAL
  | MODE_TIMER_SET
  | MODE_METRONOME
  | MODE_KEY_CONFIG
deriving DecidableEq

/-- `LONG_PRESS_TIME` of `key.h` (ms). -/
def LONG_PRESS_TIME : ℕ := 1500

/-- `PRESET_COUNT`: the `presets` initializer of `sys.cpp` has exactly two
entries. -/
def PRESET_COUNT : ℕ := 2

/-- `KeyPreset` of `sys.cpp`: the five 8-byte HID keymap rows.  The
display-only `name` / `keyDescription` strings are omitted (consumed only
by the excluded OLED rendering). -/
structure KeyPreset where
  keymap : List (List ℕ)
deriving DecidableEq

/-- The two `presets` of `sys.cpp` ("Image" and "Video"), bytes in
decimal: 0x01 = 1 (LCtrl), 0x1B = 27 (X), 0x19 = 25 (V), 0x4C = 76 (Del),
0x50 = 80 (Left), 0x4F = 79 (Right), 0x2C = 44 (Space). -/
def presets : List KeyPreset :=
  [ ⟨[ [1, 0, 27, 0, 0, 0, 0, 0],
       [1, 0, 25, 0, 0, 0, 0, 0],
       [0, 0, 76, 0, 0, 0, 0, 0],
       [0, 0, 80, 0, 0, 0, 0, 0],
       [0, 0, 79, 0, 0, 0, 0, 0] ]⟩,
    ⟨[ [1, 0, 27, 0, 0, 0, 0, 0],
       [1, 0, 25, 0, 0, 0, 0, 0],
       [0, 0, 44, 0, 0, 0, 0, 0],
       [0, 0, 80, 0, 0, 0, 0, 0],
       [0, 0, 79, 0, 0, 0, 0, 0] ]⟩ ]

/-- Fallback preset for the (guarded, never taken) out-of-range list read. -/
def dfltPreset : KeyPreset := ⟨List.replicate 5 (List.replicate 8 0)⟩

/-- The core shared state: `keyState`, `keyLongPressed`,
`keyPressStartTime`, `sendRelease` (`key.c`), `currentMode`,
`currentPreset` (`sys.cpp`), `enableKey` (`key.c`), and the five active
report buffers `k1Buf` .. `k5Buf` as `bufs 0` .. `bufs 4`. -/
structure SysState where
  keys : Fin 5 → KeyState
  keyLongPressed : Fin 5 → Bool
  keyPressStartTime : Fin 5 → ℕ
  sendRelease : Bool
  currentMode : SystemMode
  enableKey : Bool
  currentPreset : ℕ
  bufs : Fin 5 → List ℕ

/-- One button of `KEY_Update` (`key.c`): refresh the debounced level,
then the long-press logic — arm the timer on a fresh press, latch and
zero the timer once `now - start > LONG_PRESS_TIME`, zero the timer on
release. -/
def keyUpdate1 (pressedNow : Bool) (now : ℕ) (k : KeyState) (longPressed : Bool)
    (start : ℕ) : KeyState × Bool × ℕ :=
  let k1 := { k with isPressed := pressedNow }
  if pressedNow then
    if start = 0 then (k1, longPressed, now)
    else if now - start > LONG_PRESS_TIME then (k1, true, 0)
    else (k1, longPressed, start)
  else (k1, longPressed, 0)

/-- `KEY_Update` of `key.c` over the five buttons; `input` is the
debounced physical level, `now` is `millis()`. -/
def KEY_Update (input : Fin 5 → Bool) (now : ℕ) (s : SysState) : SysState :=
  { s with
    keys := fun i =>
      (keyUpdate1 (input i) now (s.keys i) (s.keyLongPressed i) (s.keyPressStartTime i)).1,
    keyLongPressed := fun i =>
      (keyUpdate1 (input i) now (s.keys i) (s.keyLongPressed i) (s.keyPressStartTime i)).2.1,
    keyPressStartTime := fun i =>
      (keyUpdate1 (input i) now (s.keys i) (s.keyLongPressed i) (s.keyPressStartTime i)).2.2 }

/-- One button of the `KEY_Detect` ISR (`main.cpp`): on a released button
whose report went out, request the global release report and drop the
flag; otherwise mark a held button as needing a report.  The second
component is the `sendRelease = true` request. -/
def keyDetect1 (k : KeyState) : KeyState × Bool :=
  if k.isReleased then
    if k.isPressed = false then ({ k with isReleased := false }, true)
    else (k, false)
  else if k.isPressed then ({ k with shouldSend := true }, false)
  else (k, false)

/-- `KEY_Detect` of `main.cpp` (the 100 Hz timer ISR), restricted to its
key-scanning half; the countdown-timer half only touches the out-of-scope
timer state. -/
def KEY_Detect (s : SysState) : SysState :=
  { s with
    keys := fun i => (keyDetect1 (s.keys i)).1,
    sendRelease := s.sendRelease || (keyDetect1 (s.keys 0)).2 || (keyDetect1 (s.keys 1)).2
      || (keyDetect1 (s.keys 2)).2 || (keyDetect1 (s.keys 3)).2 || (keyDetect1 (s.keys 4)).2 }

/-- An observable `send2Ble` call: a per-button report from `KEY_Send`
(carrying that button and its active buffer) or an all-zero `release`
report. -/
inductive Emit where
  | key (i : Fin 5) (b : List ℕ)
  | rel
deriving DecidableEq

/-- One button of the `KEY_Send` dispatch loop (`main.cpp`): if
`shouldSend && !isReleased`, send this button buffer and move the button
to awaiting-release. -/
def sendOne (i : Fin 5) (sr : SysState × List Emit) : SysState × List Emit :=
  let s := sr.1
  if (s.keys i).shouldSend && !(s.keys i).isReleased then
    ({ s with keys := Function.update s.keys i
                        { isPressed := (s.keys i).isPressed, shouldSend := false,
                          isReleased := true } },
     sr.2 ++ [Emit.key i (s.bufs i)])
  else sr

/-- `KEY_Send` of `main.cpp`: the five per-button dispatches in order,
then the global all-released report if `sendRelease` is set. -/
def KEY_Send (s : SysState) : SysState × List Emit :=
  let r := sendOne 4 (sendOne 3 (sendOne 2 (sendOne 1 (sendOne 0 (s, [])))))
  if r.1.sendRelease then ({ r.1 with sendRelease := false }, r.2 ++ [Emit.rel])
  else r

/-- The `while (keyState[0].isPressed) { KEY_Update(); delay(10); }`
busy-wait of `SYS_ModeSwitch`: each iteration re-reads the physical lines
(one `(input, now)` pair consumed per iteration).  The input list is the
fuel; an exhausted list models a hold outlasting the modelled window. -/
def waitRelease : List ((Fin 5 → Bool) × ℕ) → SysState → SysState
  | [], s => s
  | (p, t) :: rest, s =>
      if (s.keys 0).isPressed then waitRelease rest (KEY_Update p t s) else s

/-- `SYS_ModeSwitch` of `sys.cpp`: the `else if` chain over the three
long-press latches; key 1 toggles `MODE_KEY_CONFIG` (waiting for its
physical release first), key 2 toggles `MODE_TIMER_SET`, key 3 toggles
`MODE_METRONOME`; the acted-on latch and its hold timer are cleared. -/
def SYS_ModeSwitch (wi : List ((Fin 5 → Bool) × ℕ)) (s : SysState) : SysState :=
  if s.keyLongPressed 0 then
    let s1 := { s with currentMode := (if s.currentMode = SystemMode.MODE_KEY_CONFIG
                  then SystemMode.MODE_NORMAL else SystemMode.MODE_KEY_CONFIG) }
    let s2 := waitRelease wi s1
    { s2 with keyLongPressed := Function.update s2.keyLongPressed 0 false,
              keyPressStartTime := Function.update s2.keyPressStartTime 0 0 }
  else if s.keyLongPressed 1 then
    { s with
      currentMode := (if s.currentMode = SystemMode.MODE_TIMER_SET
        then SystemMode.MODE_NORMAL else SystemMode.MODE_TIMER_SET),
      keyLongPressed := Function.update s.keyLongPressed 1 false,
      keyPressStartTime := Function.update s.keyPressStartTime 1 0 }
  else if s.keyLongPressed 2 then
    { s with
      currentMode := (if s.currentMode = SystemMode.MODE_METRONOME
        then SystemMode.MODE_NORMAL else SystemMode.MODE_METRONOME),
      keyLongPressed := Function.update s.keyLongPressed 2 false,
      keyPressStartTime := Function.update s.keyPressStartTime 2 0 }
  else s

/-- `SYS_ApplyPreset` of `sys.cpp` acting on the five active report
buffers: guarded no-op for an out-of-range index, otherwise the five
`memcpy`s from the selected preset. -/
def SYS_ApplyPreset (presetIndex : ℕ) (bufs : Fin 5 → List ℕ) : Fin 5 → List ℕ :=
  if presetIndex ≥ PRESET_COUNT then bufs
  else fun i => (presets.getD presetIndex dfltPreset).keymap.getD (i : ℕ) []

/-- `SYS_KeyConfig` of `sys.cpp` (runs while in `MODE_KEY_CONFIG`):
key 4 / key 5 step `currentPreset` backwards / forwards, key 1 confirms —
persisting the index (NVS, out of scope), applying the preset to the
active buffers and returning to `MODE_NORMAL`. -/
def SYS_KeyConfig (s : SysState) : SysState :=
  let s1 := if (s.keys 3).isPressed
    then { s with currentPreset := (s.currentPreset + PRESET_COUNT - 1) % PRESET_COUNT }
    else s
  let s2 := if (s1.keys 4).isPressed
    then { s1 with currentPreset := (s1.currentPreset + 1) % PRESET_COUNT }
    else s1
  if (s2.keys 0).isPressed then
    { s2 with bufs := SYS_ApplyPreset s2.currentPreset s2.bufs,
              currentMode := SystemMode.MODE_NORMAL }
  else s2

/-- The `switch (currentMode)` of `loop()` (`main.cpp`): `MODE_NORMAL`
re-enables dispatch (sending one release report if it was disabled), the
three other modes disable dispatch (sending one release report if it was
enabled) and run their in-mode handler, of which only `SYS_KeyConfig`
touches core state. -/
def modeCase (r : SysState × List Emit) : SysState × List Emit :=
  let s3 := r.1
  match s3.currentMode with
  | SystemMode.MODE_NORMAL =>
      if s3.enableKey = false then ({ s3 with enableKey := true }, r.2 ++ [Emit.rel])
      else ({ s3 with enableKey := true }, r.2)
  | SystemMode.MODE_TIMER_SET =>
      if s3.enableKey then ({ s3 with enableKey := false }, r.2 ++ [Emit.rel])
      else ({ s3 with enableKey := false }, r.2)
  | SystemMode.MODE_METRONOME =>
      if s3.enableKey then ({ s3 with enableKey := false }, r.2 ++ [Emit.rel])
      else ({ s3 with enableKey := false }, r.2)
  | SystemMode.MODE_KEY_CONFIG =>
      if s3.enableKey then
        (SYS_KeyConfig { s3 with enableKey := false }, r.2 ++ [Emit.rel])
      else (SYS_KeyConfig { s3 with enableKey := false }, r.2)

/-- One iteration of `loop()` (`main.cpp`): `KEY_Update`,
`SYS_ModeSwitch`, the connection-gated `KEY_Send`, then the
`currentMode` switch. -/
def loopIter (conn : Bool) (input : Fin 5 → Bool) (now : ℕ)
    (wi : List ((Fin 5 → Bool) × ℕ)) (s : SysState) : SysState × List Emit :=
  let s1 := KEY_Update input now s
  let s2 := SYS_ModeSwitch wi s1
  modeCase (if conn && s2.enableKey then KEY_Send s2 else (s2, []))

/-- An atomic event: one 100 Hz ISR tick, or one cooperative `loop()`
iteration with its connection state, debounced input, `millis()` value and
busy-wait input stream. -/
inductive Ev where
  | tick
  | loop (conn : Bool) (input : Fin 5 → Bool) (now : ℕ) (wi : List ((Fin 5 → Bool) × ℕ))

/-- Event semantics: ticks run `KEY_Detect` (emitting nothing), loop
events run `loopIter`. -/
def step : Ev → SysState → SysState × List Emit
  | Ev.tick, s => (KEY_Detect s, [])
  | Ev.loop conn input now wi, s => loopIter conn input now wi s

/-- Run a trace of events, accumulating the emitted reports. -/
def runTrace : List Ev → SysState → SysState × List Emit
  | [], s => (s, [])
  | e :: evs, s =>
      let r := step e s
      let r2 := runTrace evs r.1
      (r2.1, r.2 ++ r2.2)

/-- The `k1Buf` .. `k5Buf` initializers of `key.c` (Ctrl+X, Ctrl+C,
Ctrl+V, two spare all-zero buffers). -/
def initKeyBufs : Fin 5 → List ℕ := fun i =>
  [ [1, 0, 27, 0, 0, 0, 0, 0], [1, 0, 6, 0, 0, 0, 0, 0], [1, 0, 25, 0, 0, 0, 0, 0],
    [0, 0, 0, 0, 0, 0, 0, 0], [0, 0, 0, 0, 0, 0, 0, 0] ].getD (i : ℕ) []

/-- The state after `setup()` (`main.cpp`): everything idle, mode
`MODE_NORMAL`, dispatch enabled, preset 0 loaded (the NVS default) and
applied to the active buffers. -/
def initState : SysState :=
  { keys := fun _ => ⟨false, false, false⟩,
    keyLongPressed := fun _ => false,
    keyPressStartTime := fun _ => 0,
    sendRelease := false,
    currentMode := SystemMode.MODE_NORMAL,
    enableKey := true,
    currentPreset := 0,
    bufs := SYS_ApplyPreset 0 initKeyBufs }

/-- The one-step relation of the interleaved system: some event fires. -/
def stepRel (s t : SysState) : Prop := ∃ e, t = (step e s).1

/-- States reachable from the post-`setup()` state under any
interleaving of ticks and loop iterations. -/
def Reachable (s : SysState) : Prop := Relation.ReflTransGen stepRel initState s

/-- The button a report was sent for, if any. -/
def keyIdx : Emit → Option (Fin 5)
  | Emit.key i _ => some i
  | Emit.rel => none

/-- How many reports for button `i` an output trace contains. -/
def countKey (i : Fin 5) (out : List Emit) : ℕ := (out.filterMap keyIdx).count i

/-- The C4 invariant: `shouldSend` (pendingReport) and `isReleased`
(awaitingRelease) are never both set for the same button. -/
def flagsOK (s : SysState) : Prop :=
  ∀ i : Fin 5, ¬((s.keys i).shouldSend = true ∧ (s.keys i).isReleased = true)

/-- The debounced input with exactly button `i` down. -/
def heldInput (i : Fin 5) : Fin 5 → Bool := fun j => j == i

/-- The debounced input with every button up. -/
def noInput : Fin 5 → Bool := fun _ => false

/-- An event of the press phase of a single-press scenario for button
`i`: a tick, or a connected loop iteration with exactly button `i` down
whose `millis()` lies in the window `[T, T + LONG_PRESS_TIME]` (so the
hold never latches a long press). -/
def AEv (i : Fin 5) (T : ℕ) : Ev → Prop
  | Ev.tick => True
  | Ev.loop conn input now _ =>
      conn = true ∧ input = heldInput i ∧ T ≤ now ∧ now ≤ T + LONG_PRESS_TIME

/-- An event of the release phase: a tick, or a connected loop iteration
with every button up. -/
def BEv : Ev → Prop
  | Ev.tick => True
  | Ev.loop conn input _ _ => conn = true ∧ input = noInput

/-- The protocol phase of a single press of button `i` (with window
start `T`, active buffers `B0` and preset `pr`): 0 idle, 1 pressed seen
by the loop, 2 report pending, 3 report sent and held, 4 released while
awaiting release, 5 release signalled, 6 done.  The rest of the core
state is quiescent: mode normal, dispatch enabled, no latches, other
buttons idle. -/
def pressPhase (i : Fin 5) (T : ℕ) (B0 : Fin 5 → List ℕ) (pr : ℕ) (p : ℕ)
    (s : SysState) : Prop :=
  s.currentMode = SystemMode.MODE_NORMAL ∧ s.enableKey = true
  ∧ s.currentPreset = pr ∧ (∀ j : Fin 5, s.bufs j = B0 j)
  ∧ (∀ j : Fin 5, j ≠ i → s.keys j = ⟨false, false, false⟩ ∧ s.keyPressStartTime j = 0)
  ∧ (∀ j : Fin 5, s.keyLongPressed j = false)
  ∧ (match p with
    | 0 => s.keys i = ⟨false, false, false⟩ ∧ s.keyPressStartTime i = 0
        ∧ s.sendRelease = false
    | 1 => s.keys i = ⟨true, false, false⟩ ∧ T ≤ s.keyPressStartTime i
        ∧ s.keyPressStartTime i ≤ T + LONG_PRESS_TIME ∧ s.sendRelease = false
    | 2 => s.keys i = ⟨true, true, false⟩ ∧ T ≤ s.keyPressStartTime i
        ∧ s.keyPressStartTime i ≤ T + LONG_PRESS_TIME ∧ s.sendRelease = false
    | 3 => s.keys i = ⟨true, false, true⟩ ∧ T ≤ s.keyPressStartTime i
        ∧ s.keyPressStartTime i ≤ T + LONG_PRESS_TIME ∧ s.sendRelease = false
    | 4 => s.keys i = ⟨false, false, true⟩ ∧ s.keyPressStartTime i = 0
        ∧ s.sendRelease = false
    | 5 => s.keys i = ⟨false, false, false⟩ ∧ s.keyPressStartTime i = 0
        ∧ s.sendRelease = true
    | 6 => s.keys i = ⟨false, false, false⟩ ∧ s.keyPressStartTime i = 0
        ∧ s.sendRelease = false
    | _ => False)

/-- The reports emitted up to each phase of a single press. -/
def phaseOut (i : Fin 5) (B0 : Fin 5 → List ℕ) (p : ℕ) : List Emit :=
  if p ≤ 2 then [] else if p ≤ 5 then [Emit.key i (B0 i)]
  else [Emit.key i (B0 i), Emit.rel]

/-- Phase transition of a tick (either phase of the scenario). -/
def nextT (p : ℕ) : ℕ := if p = 1 then 2 else if p = 4 then 5 else p

/-- Phase transition of a press-phase loop iteration. -/
def nextAL (p : ℕ) : ℕ := if p = 0 then 1 else if p = 2 then 3 else p

/-- Phase transition of a release-phase loop iteration. -/
def nextBL (p : ℕ) : ℕ := if p = 2 ∨ p = 3 then 4 else if p = 5 then 6 else p

/-- Whether an event keeps button `i` physically held (loop inputs and
busy-wait inputs all read it down). -/
def heldEv (i : Fin 5) : Ev → Prop
  | Ev.tick => True
  | Ev.loop _ input _ wi => input i = true ∧ ∀ pt ∈ wi, pt.1 i = true

/-- Button `i` is held with its press already reported: physically down,
no pending report, awaiting release. -/
def heldQuiet (i : Fin 5) (s : SysState) : Prop :=
  s.keys i = ⟨true, false, true⟩

lemma lipoly_pairwise : Lipoly_LUT.Pairwise lutDesc := by
  norm_num [Lipoly_LUT, lutDesc, List.pairwise_cons]

lemma toNat_floor_le {x : ℚ} {n : ℕ} (h : x ≤ (n : ℚ)) : Int.toNat ⌊x⌋ ≤ n := by
  have h1 : ⌊x⌋ ≤ (n : ℤ) := by
    have := Int.floor_mono h
    simpa using this
  exact Int.toNat_le.mpr h1

lemma le_toNat_floor {x : ℚ} {n : ℕ} (h : (n : ℚ) ≤ x) : n ≤ Int.toNat ⌊x⌋ := by
  have h1 : (n : ℤ) ≤ ⌊x⌋ := Int.le_floor.mpr (by exact_mod_cast h)
  have := Int.toNat_le_toNat h1
  simpa using this

lemma toNat_floor_mono {x y : ℚ} (h : x ≤ y) : Int.toNat ⌊x⌋ ≤ Int.toNat ⌊y⌋ :=
  Int.toNat_le_toNat (Int.floor_mono h)

lemma interp_le_pHigh {vH vL v : ℚ} {pH pL : ℕ} (hv : vL < vH) (hp : pL ≤ pH)
    (h1 : v ≤ vH) : interpValue vH vL pH pL v ≤ (pH : ℚ) := by
  have hc : (0 : ℚ) < vH - vL := sub_pos.mpr hv
  have hd : (0 : ℚ) ≤ (pH : ℚ) - (pL : ℚ) := sub_nonneg.mpr (by exact_mod_cast hp)
  have hr : (v - vL) / (vH - vL) ≤ 1 := (div_le_one hc).mpr (sub_le_sub_right h1 vL)
  have : (v - vL) / (vH - vL) * ((pH : ℚ) - (pL : ℚ)) ≤ 1 * ((pH : ℚ) - (pL : ℚ)) :=
    mul_le_mul_of_nonneg_right hr hd
  have := add_le_add_left this (pL : ℚ)
  simpa [interpValue] using this

lemma pLow_le_interp {vH vL v : ℚ} {pH pL : ℕ} (hv : vL < vH) (hp : pL ≤ pH)
    (h2 : vL ≤ v) : (pL : ℚ) ≤ interpValue vH vL pH pL v := by
  have hc : (0 : ℚ) < vH - vL := sub_pos.mpr hv
  have hd : (0 : ℚ) ≤ (pH : ℚ) - (pL : ℚ) := sub_nonneg.mpr (by exact_mod_cast hp)
  have hr : (0 : ℚ) ≤ (v - vL) / (vH - vL) :=
    div_nonneg (sub_nonneg.mpr h2) (le_of_lt hc)
  have : (0 : ℚ) ≤ (v - vL) / (vH - vL) * ((pH : ℚ) - (pL : ℚ)) := mul_nonneg hr hd
  have := add_le_add_left this (pL : ℚ)
  simpa [interpValue] using this

lemma interp_mono {vH vL v1 v2 : ℚ} {pH pL : ℕ} (hv : vL < vH) (hp : pL ≤ pH)
    (h : v2 ≤ v1) : interpValue vH vL pH pL v2 ≤ interpValue vH vL pH pL v1 := by
  have hc : (0 : ℚ) < vH - vL := sub_pos.mpr hv
  have hd : (0 : ℚ) ≤ (pH : ℚ) - (pL : ℚ) := sub_nonneg.mpr (by exact_mod_cast hp)
  have hr : (v2 - vL) / (vH - vL) ≤ (v1 - vL) / (vH - vL) :=
    (div_le_div_iff_of_pos_right hc).mpr (sub_le_sub_right h vL)
  exact add_le_add_left (mul_le_mul_of_nonneg_right hr hd) _

/-- The scan result never exceeds an upper bound on all table percentages. -/
lemma lutScan_le (p : ℕ) : ∀ (l : List (ℚ × ℕ)) (v : ℚ), l.Pairwise lutDesc →
    (∀ e ∈ l, e.2 ≤ p) → lutScan l v ≤ p := by
  intro l
  induction l with
  | nil => intro v _ _; simp [lutScan, lutScanOpt]
  | cons a t ih =>
    intro v hpw hb
    obtain ⟨vH, pH⟩ := a
    cases t with
    | nil => simp [lutScan, lutScanOpt]
    | cons b r =>
      obtain ⟨vL, pL⟩ := b
      rw [List.pairwise_cons] at hpw
      obtain ⟨hrel, hpw'⟩ := hpw
      have hVL : vL < vH := (hrel (vL, pL) (List.mem_cons_self _ _)).1
      have hPL : pL ≤ pH := (hrel (vL, pL) (List.mem_cons_self _ _)).2
      by_cases hc : v ≤ vH ∧ vL < v
      · have hple : interpValue vH vL pH pL v ≤ (pH : ℚ) :=
          interp_le_pHigh hVL hPL hc.1
        have h1 : lutScan ((vH, pH) :: (vL, pL) :: r) v
            = Int.toNat ⌊interpValue vH vL pH pL v⌋ := by
          simp [lutScan, lutScanOpt, if_pos hc]
        rw [h1]
        exact le_trans (toNat_floor_le hple) (hb (vH, pH) (List.mem_cons_self _ _))
      · have h1 : lutScan ((vH, pH) :: (vL, pL) :: r) v = lutScan ((vL, pL) :: r) v := by
          simp [lutScan, lutScanOpt, if_neg hc]
        rw [h1]
        exact ih v hpw' (fun e he => hb e (List.mem_cons_of_mem _ he))

/-- If the scan hits an interval, the result is at least any lower bound on
all table percentages. -/
lemma le_lutScan (q : ℕ) : ∀ (l : List (ℚ × ℕ)) (v : ℚ), l.Pairwise lutDesc →
    (∀ e ∈ l, q ≤ e.2) → (lutScanOpt l v).isSome → q ≤ lutScan l v := by
  intro l
  induction l with
  | nil => intro v _ _ hs; simp [lutScanOpt] at hs
  | cons a t ih =>
    intro v hpw hb hs
    obtain ⟨vH, pH⟩ := a
    cases t with
    | nil => simp [lutScanOpt] at hs
    | cons b r =>
      obtain ⟨vL, pL⟩ := b
      rw [List.pairwise_cons] at hpw
      obtain ⟨hrel, hpw'⟩ := hpw
      have hVL : vL < vH := (hrel (vL, pL) (List.mem_cons_self _ _)).1
      have hPL : pL ≤ pH := (hrel (vL, pL) (List.mem_cons_self _ _)).2
      by_cases hc : v ≤ vH ∧ vL < v
      · have hple : (pL : ℚ) ≤ interpValue vH vL pH pL v :=
          pLow_le_interp hVL hPL (le_of_lt hc.2)
        have h1 : lutScan ((vH, pH) :: (vL, pL) :: r) v
            = Int.toNat ⌊interpValue vH vL pH pL v⌋ := by
          simp [lutScan, lutScanOpt, if_pos hc]
        rw [h1]
        exact le_trans (hb (vL, pL) (List.mem_cons_of_mem _ (List.mem_cons_self _ _)))
          (le_toNat_floor hple)
      · have h1 : lutScan ((vH, pH) :: (vL, pL) :: r) v = lutScan ((vL, pL) :: r) v := by
          simp [lutScan, lutScanOpt, if_neg hc]
        have hs' : (lutScanOpt ((vL, pL) :: r) v).isSome := by
          simpa [lutScanOpt, if_neg hc] using hs
        rw [h1]
        exact ih v hpw' (fun e he => hb e (List.mem_cons_of_mem _ he)) hs'

/-- Monotonicity of the bracketing scan in the sampled voltage, below the
head voltage of the table. -/
lemma lutScan_mono : ∀ (l : List (ℚ × ℕ)) (v1 v2 : ℚ), l.Pairwise lutDesc →
    v2 ≤ v1 → (∀ a, l.head? = some a → v1 ≤ a.1) → lutScan l v2 ≤ lutScan l v1 := by
  intro l
  induction l with
  | nil => intro v1 v2 _ _ _; simp [lutScan, lutScanOpt]
  | cons a t ih =>
    intro v1 v2 hpw h12 hhd
    obtain ⟨vH, pH⟩ := a
    cases t with
    | nil => simp [lutScan, lutScanOpt]
    | cons b r =>
      obtain ⟨vL, pL⟩ := b
      rw [List.pairwise_cons] at hpw
      obtain ⟨hrel, hpw'⟩ := hpw
      have hVL : vL < vH := (hrel (vL, pL) (List.mem_cons_self _ _)).1
      have hPL : pL ≤ pH := (hrel (vL, pL) (List.mem_cons_self _ _)).2
      have hv1H : v1 ≤ vH := hhd (vH, pH) rfl
      have hv2H : v2 ≤ vH := le_trans h12 hv1H
      by_cases hc1 : vL < v1
      · -- v1 is bracketed by the first interval
        have hcc1 : v1 ≤ vH ∧ vL < v1 := ⟨hv1H, hc1⟩
        have e1 : lutScan ((vH, pH) :: (vL, pL) :: r) v1
            = Int.toNat ⌊interpValue vH vL pH pL v1⌋ := by
          simp [lutScan, lutScanOpt, if_pos hcc1]
        by_cases hc2 : vL < v2
        · have hcc2 : v2 ≤ vH ∧ vL < v2 := ⟨hv2H, hc2⟩
          have e2 : lutScan ((vH, pH) :: (vL, pL) :: r) v2
              = Int.toNat ⌊interpValue vH vL pH pL v2⌋ := by
            simp [lutScan, lutScanOpt, if_pos hcc2]
          rw [e1, e2]
          exact toNat_floor_mono (interp_mono hVL hPL h12)
        · -- v2 falls through to the tail, whose percentages are all ≤ pL
          have e2 : lutScan ((vH, pH) :: (vL, pL) :: r) v2 = lutScan ((vL, pL) :: r) v2 := by
            simp only [lutScan, lutScanOpt]
            rw [if_neg (by tauto)]
          rw [e1, e2]
          have hup : lutScan ((vL, pL) :: r) v2 ≤ pL := by
            refine lutScan_le pL ((vL, pL) :: r) v2 hpw' ?_
            intro e he
            rcases List.mem_cons.mp he with h | h
            · rw [h]
            · have := (List.pairwise_cons.mp hpw').1 e h
              exact this.2
          have hlow : pL ≤ Int.toNat ⌊interpValue vH vL pH pL v1⌋ :=
            le_toNat_floor (pLow_le_interp hVL hPL (le_of_lt hc1))
          exact le_trans hup hlow
      · -- both fall through to the tail
        have hnc1 : ¬(v1 ≤ vH ∧ vL < v1) := by tauto
        have hc2 : ¬(vL < v2) := fun h => hc1 (lt_of_lt_of_le h h12)
        have hnc2 : ¬(v2 ≤ vH ∧ vL < v2) := by tauto
        have e1 : lutScan ((vH, pH) :: (vL, pL) :: r) v1 = lutScan ((vL, pL) :: r) v1 := by
          simp only [lutScan, lutScanOpt]; rw [if_neg hnc1]
        have e2 : lutScan ((vH, pH) :: (vL, pL) :: r) v2 = lutScan ((vL, pL) :: r) v2 := by
          simp only [lutScan, lutScanOpt]; rw [if_neg hnc2]
        rw [e1, e2]
        exact ih v1 v2 hpw' h12 (fun a ha => by
          simp only [List.head?] at ha
          cases ha
          exact not_lt.mp hc1)

/-- If `v` is below the head voltage and above the last voltage, the scan
loop returns inside (the trailing `return 0` is not reached). -/
lemma lutScanOpt_isSome : ∀ (l : List (ℚ × ℕ)) (v : ℚ), l ≠ [] →
    (∀ a, l.head? = some a → v ≤ a.1) → (∀ e, l.getLast? = some e → e.1 < v) →
    (lutScanOpt l v).isSome := by
  intro l
  induction l with
  | nil => intro v h _ _; exact absurd rfl h
  | cons a t ih =>
    intro v _ hhd hlast
    obtain ⟨vH, pH⟩ := a
    cases t with
    | nil =>
      exfalso
      have h1 : v ≤ vH := hhd (vH, pH) rfl
      have h2 : vH < v := hlast (vH, pH) rfl
      exact absurd h1 (not_le.mpr h2)
    | cons b r =>
      obtain ⟨vL, pL⟩ := b
      by_cases hc : v ≤ vH ∧ vL < v
      · simp [lutScanOpt, if_pos hc]
      · have hv1 : v ≤ vH := hhd (vH, pH) rfl
        have hvL : v ≤ vL := by
          rcases not_and_or.mp hc with h | h
          · exact absurd hv1 h
          · exact not_lt.mp h
        have e1 : lutScanOpt ((vH, pH) :: (vL, pL) :: r) v = lutScanOpt ((vL, pL) :: r) v := by
          simp [lutScanOpt, if_neg hc]
        rw [e1]
        refine ih v (by simp) ?_ ?_
        · intro a ha
          simp only [List.head?] at ha
          cases ha
          exact hvL
        · intro e he
          exact hlast e (by rw [List.getLast?_cons_cons]; exact he)

/-- Under the same interior hypotheses some index brackets `v`. -/
lemma bracketAt_exists : ∀ (l : List (ℚ × ℕ)) (v : ℚ), l ≠ [] →
    (∀ a, l.head? = some a → v ≤ a.1) → (∀ e, l.getLast? = some e → e.1 < v) →
    ∃ i, bracketAt l v i := by
  intro l
  induction l with
  | nil => intro v h _ _; exact absurd rfl h
  | cons a t ih =>
    intro v _ hhd hlast
    obtain ⟨vH, pH⟩ := a
    cases t with
    | nil =>
      exfalso
      have h1 : v ≤ vH := hhd (vH, pH) rfl
      have h2 : vH < v := hlast (vH, pH) rfl
      exact absurd h1 (not_le.mpr h2)
    | cons b r =>
      obtain ⟨vL, pL⟩ := b
      by_cases hc : v ≤ vH ∧ vL < v
      · refine ⟨0, ?_⟩
        refine ⟨by simp, ?_⟩
        simpa using hc
      · have hv1 : v ≤ vH := hhd (vH, pH) rfl
        have hvL : v ≤ vL := by
          rcases not_and_or.mp hc with h | h
          · exact absurd hv1 h
          · exact not_lt.mp h
        obtain ⟨i, hi⟩ := ih v (by simp) (fun a ha => by
            simp only [List.head?] at ha; cases ha; exact hvL)
          (fun e he => hlast e (by rw [List.getLast?_cons_cons]; exact he))
        obtain ⟨hlen, h1, h2⟩ := hi
        refine ⟨i + 1, ⟨by simpa using Nat.succ_lt_succ hlen, ?_, ?_⟩⟩
        · simpa using h1
        · simpa using h2

/-- Strictly descending voltages make the bracketing index unique. -/
lemma bracketAt_unique {l : List (ℚ × ℕ)} (hpw : l.Pairwise lutDesc) {v : ℚ}
    {i j : ℕ} (hi : bracketAt l v i) (hj : bracketAt l v j) : i = j := by
  obtain ⟨hli, hi1, hi2⟩ := hi
  obtain ⟨hlj, hj1, hj2⟩ := hj
  have key : ∀ {a b : ℕ} (ha : a + 1 < l.length) (hb : b + 1 < l.length),
      a < b → v ≤ (l.get ⟨b, Nat.lt_of_succ_lt hb⟩).1 →
      (l.get ⟨a + 1, ha⟩).1 < v → False := by
    intro a b ha hb hab h1 h2
    have hmono := List.pairwise_iff_get.mp hpw
    have hle : (l.get ⟨b, Nat.lt_of_succ_lt hb⟩).1 ≤ (l.get ⟨a + 1, ha⟩).1 := by
      rcases Nat.lt_or_ge (a + 1) b with h | h
      · exact le_of_lt (hmono ⟨a + 1, ha⟩ ⟨b, Nat.lt_of_succ_lt hb⟩ h).1
      · have : a + 1 = b := le_antisymm (Nat.succ_le_of_lt hab) h
        subst this
        exact le_refl _
    exact absurd (lt_of_le_of_lt (le_trans h1 hle) h2) (lt_irrefl v)
  rcases Nat.lt_trichotomy i j with h | h | h
  · exact absurd (key hli hlj h hj1 hi2) (fun f => f)
  · exact h
  · exact absurd (key hlj hli h hi1 hj2) (fun f => f)

lemma lut_head_fst : (Lipoly_LUT.get ⟨0, by decide⟩).1 = 415/100 := rfl

lemma lut_last_fst : (Lipoly_LUT.get ⟨12, by decide⟩).1 = 325/100 := rfl

/-- C5. The battery percentage is monotone in the voltage, always at most
100, and clamps to 100 / 0 at or beyond the first / last table voltage. -/
theorem bat_percentage_monotone_bounded :
    (∀ v1 v2 : ℚ, v2 < v1 → BAT_GetPercentage v2 ≤ BAT_GetPercentage v1)
    ∧ (∀ v : ℚ, BAT_GetPercentage v ≤ 100)
    ∧ (∀ v : ℚ, (Lipoly_LUT.get ⟨0, by decide⟩).1 ≤ v → BAT_GetPercentage v = 100)
    ∧ (∀ v : ℚ, v ≤ (Lipoly_LUT.get ⟨12, by decide⟩).1 → BAT_GetPercentage v = 0) := by
  have hbound : ∀ v : ℚ, BAT_GetPercentage v ≤ 100 := by
    intro v
    unfold BAT_GetPercentage
    split
    · exact le_refl _
    · split
      · exact Nat.zero_le _
      · refine lutScan_le 100 Lipoly_LUT v lipoly_pairwise ?_
        intro e he
        simp only [Lipoly_LUT, List.mem_cons, List.not_mem_nil, or_false] at he
        rcases he with h | h | h | h | h | h | h | h | h | h | h | h | h <;>
          (subst h; norm_num)
  refine ⟨?_, hbound, ?_, ?_⟩
  · intro v1 v2 h12
    unfold BAT_GetPercentage
    by_cases h1 : (Lipoly_LUT.get ⟨0, by decide⟩).1 ≤ v1
    · rw [if_pos h1]
      have := hbound v2
      unfold BAT_GetPercentage at this
      exact le_trans this (le_refl 100)
    · rw [if_neg h1]
      have h1' : ¬ (Lipoly_LUT.get ⟨0, by decide⟩).1 ≤ v2 :=
        fun h => h1 (le_trans h (le_of_lt h12))
      rw [if_neg h1']
      by_cases h2 : v2 ≤ (Lipoly_LUT.get ⟨12, by decide⟩).1
      · rw [if_pos h2]
        exact Nat.zero_le _
      · rw [if_neg h2]
        have h2' : ¬ v1 ≤ (Lipoly_LUT.get ⟨12, by decide⟩).1 :=
          fun h => h2 (le_trans (le_of_lt h12) h)
        rw [if_neg h2']
        refine lutScan_mono Lipoly_LUT v1 v2 lipoly_pairwise (le_of_lt h12) ?_
        intro a ha
        simp only [Lipoly_LUT, List.head?] at ha
        cases ha
        exact le_of_lt (not_le.mp h1)
  · intro v hv
    unfold BAT_GetPercentage
    rw [if_pos hv]
  · intro v hv
    unfold BAT_GetPercentage
    by_cases h1 : (Lipoly_LUT.get ⟨0, by decide⟩).1 ≤ v
    · exfalso
      have : (Lipoly_LUT.get ⟨0, (by decide : (0:ℕ) < 13)⟩).1
          ≤ (Lipoly_LUT.get ⟨12, by decide⟩).1 := le_trans h1 hv
      revert this
      norm_num [Lipoly_LUT]
    · rw [if_neg h1, if_pos hv]

/-- C5 witness: a concrete monotone pair. -/
theorem bat_percentage_monotone_bounded_witness :
    BAT_GetPercentage (7/2) ≤ BAT_GetPercentage 4 :=
  bat_percentage_monotone_bounded.1 4 (7/2) (by norm_num)

/-- C6. The point values promised by the spec: 100 at 4.20 V, 0 at 2.60 V,
exactly 50 at the table hit 3.67 V, and 62 at 3.75 V (interpolated between
(3.80, 70) and (3.73, 60) and truncated). -/
theorem bat_percentage_point_values :
    BAT_GetPercentage (420/100) = 100 ∧ BAT_GetPercentage (260/100) = 0
    ∧ BAT_GetPercentage (367/100) = 50 ∧ BAT_GetPercentage (375/100) = 62 := by
  refine ⟨?_, ?_, ?_, ?_⟩ <;>
    · norm_num [BAT_GetPercentage, Lipoly_LUT, lutScan, lutScanOpt, interpValue]
      try decide

/-- C10. Every strictly interior voltage is resolved by the bracketing
scan: the loop returns inside (the trailing `return 0` is unreachable) and
exactly one interval of the table satisfies `vLow < v ≤ vHigh`. -/
theorem bat_interior_bracket_unique (v : ℚ)
    (hlo : (Lipoly_LUT.get ⟨12, by decide⟩).1 < v)
    (hhi : v < (Lipoly_LUT.get ⟨0, by decide⟩).1) :
    (lutScanOpt Lipoly_LUT v).isSome = true ∧ ∃! i, bracketAt Lipoly_LUT v i := by
  rw [lut_head_fst] at hhi
  rw [lut_last_fst] at hlo
  have hhd : ∀ a, Lipoly_LUT.head? = some a → v ≤ (a : ℚ × ℕ).1 := by
    intro a ha
    simp only [Lipoly_LUT, List.head?] at ha
    cases ha
    exact le_of_lt hhi
  have hlast : ∀ e, Lipoly_LUT.getLast? = some e → (e : ℚ × ℕ).1 < v := by
    intro e he
    have he' : (325/100, (0:ℕ)) = e := by
      simpa [Lipoly_LUT] using he
    rw [← he']
    simpa using hlo
  refine ⟨?_, ?_⟩
  · exact lutScanOpt_isSome Lipoly_LUT v (by simp [Lipoly_LUT]) hhd hlast
  · obtain ⟨i, hi⟩ := bracketAt_exists Lipoly_LUT v (by simp [Lipoly_LUT]) hhd hlast
    exact ⟨i, hi, fun j hj => bracketAt_unique lipoly_pairwise hj hi⟩

/-- C10 witness: the interior sample 3.75 V. -/
theorem bat_interior_bracket_unique_witness :
    (lutScanOpt Lipoly_LUT (375/100)).isSome = true
    ∧ ∃! i, bracketAt Lipoly_LUT (375/100) i :=
  bat_interior_bracket_unique (375/100)
    (by norm_num [Lipoly_LUT]) (by norm_num [Lipoly_LUT])


/-! ## Preset application (C8, C9) -/

/-- C8. An out-of-range preset index makes `SYS_ApplyPreset` a guarded
no-op: all five active report buffers are left exactly as they were. -/
theorem apply_preset_oob_noop (presetIndex : ℕ) (bufs : Fin 5 → List ℕ)
    (h : PRESET_COUNT ≤ presetIndex) : SYS_ApplyPreset presetIndex bufs = bufs := by
  unfold SYS_ApplyPreset
  rw [if_pos h]

/-- C8 witness: index 5 leaves the boot buffers untouched. -/
theorem apply_preset_oob_noop_witness :
    SYS_ApplyPreset 5 initKeyBufs = initKeyBufs :=
  apply_preset_oob_noop 5 initKeyBufs (by decide)

/-- C9. A valid preset index replaces all five active report buffers with
that single preset's five keymap rows — the result is drawn wholesale
from one preset, never a mixture. -/
theorem apply_preset_bulk_replace (presetIndex : ℕ) (bufs : Fin 5 → List ℕ)
    (h : presetIndex < PRESET_COUNT) :
    ∃ p, presets.get? presetIndex = some p
      ∧ ∀ i : Fin 5, SYS_ApplyPreset presetIndex bufs i = p.keymap.getD (i : ℕ) [] := by
  have h01 : presetIndex = 0 ∨ presetIndex = 1 := by
    have : presetIndex < 2 := h
    omega
  rcases h01 with h0 | h1
  · subst h0
    refine ⟨presets.getD 0 dfltPreset, by decide, fun i => ?_⟩
    unfold SYS_ApplyPreset
    rw [if_neg (by decide)]
  · subst h1
    refine ⟨presets.getD 1 dfltPreset, by decide, fun i => ?_⟩
    unfold SYS_ApplyPreset
    rw [if_neg (by decide)]

/-- C9 witness: applying preset 1 over the boot buffers. -/
theorem apply_preset_bulk_replace_witness :
    ∃ p, presets.get? 1 = some p
      ∧ ∀ i : Fin 5, SYS_ApplyPreset 1 initKeyBufs i = p.keymap.getD (i : ℕ) [] :=
  apply_preset_bulk_replace 1 initKeyBufs (by decide)

/-! ## Long-press latch re-trigger (C2) -/

/-- C2 (code bug evaluation).  Button 2 (index 1) is held continuously
while `KEY_Update` runs at `millis()` = 10, 1511, 1521 and 3100 ms.  The
latch fires at 1511 ms (`1501 > 1500`), `SYS_ModeSwitch` consumes it and
enters `MODE_TIMER_SET`; at 1521 ms the zeroed hold timer re-arms
(`start = 0` branch); at 3100 ms (`3100 - 1521 = 1579 > 1500`) the latch
fires a second time within the same uninterrupted hold and the mode
toggles back to `MODE_NORMAL` — the long-press is not one-shot per
hold. -/
theorem long_press_relatch_eval :
    (runTrace [Ev.loop false (fun j => j == (1 : Fin 5)) 10 [],
               Ev.loop false (fun j => j == (1 : Fin 5)) 1511 [],
               Ev.loop false (fun j => j == (1 : Fin 5)) 1521 []] initState).1.currentMode
      = SystemMode.MODE_TIMER_SET
    ∧ (runTrace [Ev.loop false (fun j => j == (1 : Fin 5)) 10 [],
               Ev.loop false (fun j => j == (1 : Fin 5)) 1511 [],
               Ev.loop false (fun j => j == (1 : Fin 5)) 1521 [],
               Ev.loop false (fun j => j == (1 : Fin 5)) 3100 []] initState).1.currentMode
      = SystemMode.MODE_NORMAL := by
  exact ⟨by decide, by decide⟩


/-! ## Mode controller (C7) -/

lemma keyUpdate1_fst (p : Bool) (now : ℕ) (k : KeyState) (lp : Bool) (st : ℕ) :
    (keyUpdate1 p now k lp st).1 = { k with isPressed := p } := by
  simp only [keyUpdate1]
  split_ifs <;> rfl

lemma keyUpdate1_latch_true (p : Bool) (now : ℕ) (k : KeyState) (lp : Bool) (st : ℕ)
    (h : lp = true) : (keyUpdate1 p now k lp st).2.1 = true := by
  simp only [keyUpdate1]
  split_ifs <;> simp [h]

lemma KEY_Update_keys (input : Fin 5 → Bool) (now : ℕ) (s : SysState) (i : Fin 5) :
    (KEY_Update input now s).keys i = { s.keys i with isPressed := input i } := by
  simp only [KEY_Update]
  rw [keyUpdate1_fst]

lemma KEY_Update_currentMode (input : Fin 5 → Bool) (now : ℕ) (s : SysState) :
    (KEY_Update input now s).currentMode = s.currentMode := rfl

lemma KEY_Update_latch_true (input : Fin 5 → Bool) (now : ℕ) (s : SysState) (i : Fin 5)
    (h : s.keyLongPressed i = true) : (KEY_Update input now s).keyLongPressed i = true := by
  simp only [KEY_Update]
  rw [keyUpdate1_latch_true _ _ _ _ _ h]

lemma waitRelease_of_not_pressed (wi : List ((Fin 5 → Bool) × ℕ)) (s : SysState)
    (h : (s.keys 0).isPressed = false) : waitRelease wi s = s := by
  cases wi with
  | nil => rfl
  | cons pt rest =>
    obtain ⟨p, t⟩ := pt
    simp [waitRelease, h]

lemma waitRelease_currentMode : ∀ (wi : List ((Fin 5 → Bool) × ℕ)) (s : SysState),
    (waitRelease wi s).currentMode = s.currentMode := by
  intro wi
  induction wi with
  | nil => intro s; rfl
  | cons pt rest ih =>
    intro s
    obtain ⟨p, t⟩ := pt
    by_cases h : (s.keys 0).isPressed
    · simp only [waitRelease, h, if_true]
      rw [ih, KEY_Update_currentMode]
    · simp [waitRelease, h]

lemma waitRelease_latch_true : ∀ (wi : List ((Fin 5 → Bool) × ℕ)) (s : SysState) (i : Fin 5),
    s.keyLongPressed i = true → (waitRelease wi s).keyLongPressed i = true := by
  intro wi
  induction wi with
  | nil => intro s i h; exact h
  | cons pt rest ih =>
    intro s i h
    obtain ⟨p, t⟩ := pt
    by_cases hp : (s.keys 0).isPressed
    · simp only [waitRelease, hp, if_true]
      exact ih _ i (KEY_Update_latch_true _ _ _ i h)
    · simpa [waitRelease, hp] using h

lemma waitRelease_released : ∀ (wi : List ((Fin 5 → Bool) × ℕ)) (s : SysState),
    (∃ pt ∈ wi, pt.1 0 = false) → ((waitRelease wi s).keys 0).isPressed = false := by
  intro wi
  induction wi with
  | nil => intro s h; simp at h
  | cons pt rest ih =>
    intro s h
    obtain ⟨p, t⟩ := pt
    by_cases hp : (s.keys 0).isPressed
    · simp only [waitRelease, hp, if_true]
      rcases h with ⟨qt, hmem, hq⟩
      rcases List.mem_cons.mp hmem with h1 | h1
      · subst h1
        have hrel : ((KEY_Update p t s).keys 0).isPressed = false := by
          rw [KEY_Update_keys]
          exact hq
        rw [waitRelease_of_not_pressed rest _ hrel]
        exact hrel
      · exact ih _ ⟨qt, h1, hq⟩
    · rw [Bool.not_eq_true] at hp
      simp [waitRelease, hp]

/-- C7. Each `SYS_ModeSwitch` evaluation pass honours at most the
highest-priority set latch: key 1 toggles between `MODE_KEY_CONFIG` and
`MODE_NORMAL` (entering config from any other state, returning to normal
only from config), keys 2 and 3 toggle `MODE_TIMER_SET` and
`MODE_METRONOME` the same way; the acted-on latch and its hold timer are
cleared, the other latches are not consumed, key 1 additionally blocks
until its physical release, and with no latch set the pass is the
identity. -/
theorem mode_switch_latch_rules (s : SysState) (wi : List ((Fin 5 → Bool) × ℕ)) :
    (s.keyLongPressed 0 = true →
      (SYS_ModeSwitch wi s).currentMode
          = (if s.currentMode = SystemMode.MODE_KEY_CONFIG then SystemMode.MODE_NORMAL
             else SystemMode.MODE_KEY_CONFIG)
        ∧ (SYS_ModeSwitch wi s).keyLongPressed 0 = false
        ∧ (SYS_ModeSwitch wi s).keyPressStartTime 0 = 0
        ∧ (s.keyLongPressed 1 = true → (SYS_ModeSwitch wi s).keyLongPressed 1 = true)
        ∧ (s.keyLongPressed 2 = true → (SYS_ModeSwitch wi s).keyLongPressed 2 = true)
        ∧ ((∃ pt ∈ wi, pt.1 0 = false) → ((SYS_ModeSwitch wi s).keys 0).isPressed = false))
    ∧ (s.keyLongPressed 0 = false → s.keyLongPressed 1 = true →
      (SYS_ModeSwitch wi s).currentMode
          = (if s.currentMode = SystemMode.MODE_TIMER_SET then SystemMode.MODE_NORMAL
             else SystemMode.MODE_TIMER_SET)
        ∧ (SYS_ModeSwitch wi s).keyLongPressed 1 = false
        ∧ (SYS_ModeSwitch wi s).keyPressStartTime 1 = 0
        ∧ (SYS_ModeSwitch wi s).keys = s.keys
        ∧ (SYS_ModeSwitch wi s).keyLongPressed 2 = s.keyLongPressed 2)
    ∧ (s.keyLongPressed 0 = false → s.keyLongPressed 1 = false → s.keyLongPressed 2 = true →
      (SYS_ModeSwitch wi s).currentMode
          = (if s.currentMode = SystemMode.MODE_METRONOME then SystemMode.MODE_NORMAL
             else SystemMode.MODE_METRONOME)
        ∧ (SYS_ModeSwitch wi s).keyLongPressed 2 = false
        ∧ (SYS_ModeSwitch wi s).keyPressStartTime 2 = 0
        ∧ (SYS_ModeSwitch wi s).keys = s.keys
        ∧ (SYS_ModeSwitch wi s).keyLongPressed 1 = false)
    ∧ (s.keyLongPressed 0 = false → s.keyLongPressed 1 = false → s.keyLongPressed 2 = false →
      SYS_ModeSwitch wi s = s) := by
  refine ⟨?_, ?_, ?_, ?_⟩
  · intro h0
    simp only [SYS_ModeSwitch, h0, if_true]
    refine ⟨?_, ?_, ?_, ?_, ?_, ?_⟩
    · rw [waitRelease_currentMode]
    · simp [Function.update]
    · simp [Function.update]
    · intro h1
      have : ((1 : Fin 5) : Fin 5) ≠ 0 := by decide
      rw [Function.update_noteq this]
      exact waitRelease_latch_true wi _ 1 h1
    · intro h2
      have : ((2 : Fin 5) : Fin 5) ≠ 0 := by decide
      rw [Function.update_noteq this]
      exact waitRelease_latch_true wi _ 2 h2
    · intro hw
      exact waitRelease_released wi _ hw
  · intro h0 h1
    simp only [SYS_ModeSwitch, h0, h1, Bool.false_eq_true, if_false, if_true]
    refine ⟨trivial, ?_, ?_, trivial, ?_⟩
    · simp [Function.update]
    · simp [Function.update]
    · have : ((2 : Fin 5) : Fin 5) ≠ 1 := by decide
      rw [Function.update_noteq this]
  · intro h0 h1 h2
    simp only [SYS_ModeSwitch, h0, h1, h2, Bool.false_eq_true, if_false, if_true]
    refine ⟨trivial, ?_, ?_, trivial, ?_⟩
    · simp [Function.update]
    · simp [Function.update]
    · have : ((1 : Fin 5) : Fin 5) ≠ 2 := by decide
      rw [Function.update_noteq this]
      exact h1
  · intro h0 h1 h2
    simp [SYS_ModeSwitch, h0, h1, h2]

/-- C7 witness: from `MODE_NORMAL` with the key-2 latch set, the pass
enters `MODE_TIMER_SET`, clears the latch and resets the hold timer. -/
theorem mode_switch_latch_rules_witness :
    (SYS_ModeSwitch [] { initState with keyLongPressed := fun j => j == (1 : Fin 5) }).currentMode
      = SystemMode.MODE_TIMER_SET
    ∧ (SYS_ModeSwitch [] { initState with keyLongPressed := fun j => j == (1 : Fin 5) }).keyLongPressed 1
      = false := by
  have h := (mode_switch_latch_rules
    { initState with keyLongPressed := fun j => j == (1 : Fin 5) } []).2.1
    (by decide) (by decide)
  exact ⟨by rw [h.1]; decide, h.2.1⟩


/-! ## Dispatcher flag exclusivity (C4) -/

lemma KEY_Update_flagsOK (input : Fin 5 → Bool) (now : ℕ) (s : SysState)
    (h : flagsOK s) : flagsOK (KEY_Update input now s) := by
  intro i
  rw [KEY_Update_keys]
  simpa using h i

lemma keyDetect1_flags (k : KeyState) (h : ¬(k.shouldSend = true ∧ k.isReleased = true)) :
    ¬((keyDetect1 k).1.shouldSend = true ∧ (keyDetect1 k).1.isReleased = true) := by
  rcases k with ⟨p, ss, ir⟩
  cases p <;> cases ss <;> cases ir <;> simp_all [keyDetect1]

lemma KEY_Detect_flagsOK (s : SysState) (h : flagsOK s) : flagsOK (KEY_Detect s) :=
  fun i => keyDetect1_flags (s.keys i) (h i)

lemma sendOne_keys_other {i j : Fin 5} (r : SysState × List Emit) (h : i ≠ j) :
    (sendOne j r).1.keys i = r.1.keys i := by
  simp only [sendOne]
  split_ifs <;> simp [Function.update_noteq h]

lemma sendOne_flagsOK (j : Fin 5) (r : SysState × List Emit) (h : flagsOK r.1) :
    flagsOK (sendOne j r).1 := by
  intro i
  by_cases hij : i = j
  · subst hij
    simp only [sendOne]
    split_ifs with hc
    · simp [Function.update_same]
    · exact h i
  · rw [sendOne_keys_other r hij]
    exact h i

lemma KEY_Send_flagsOK (s : SysState) (h : flagsOK s) : flagsOK (KEY_Send s).1 := by
  have h4 : flagsOK (sendOne 4 (sendOne 3 (sendOne 2 (sendOne 1 (sendOne 0 (s, [])))))).1 :=
    sendOne_flagsOK 4 _ (sendOne_flagsOK 3 _ (sendOne_flagsOK 2 _
      (sendOne_flagsOK 1 _ (sendOne_flagsOK 0 (s, []) h))))
  simp only [KEY_Send]
  split_ifs
  · exact h4
  · exact h4

lemma waitRelease_flagsOK : ∀ (wi : List ((Fin 5 → Bool) × ℕ)) (s : SysState),
    flagsOK s → flagsOK (waitRelease wi s) := by
  intro wi
  induction wi with
  | nil => intro s h; exact h
  | cons pt rest ih =>
    intro s h
    obtain ⟨p, t⟩ := pt
    by_cases hp : (s.keys 0).isPressed
    · simp only [waitRelease, hp, if_true]
      exact ih _ (KEY_Update_flagsOK p t s h)
    · rw [Bool.not_eq_true] at hp
      simpa [waitRelease, hp] using h

lemma SYS_ModeSwitch_flagsOK (wi : List ((Fin 5 → Bool) × ℕ)) (s : SysState)
    (h : flagsOK s) : flagsOK (SYS_ModeSwitch wi s) := by
  by_cases h0 : s.keyLongPressed 0 = true
  · simp only [SYS_ModeSwitch, h0, if_true]
    generalize (if s.currentMode = SystemMode.MODE_KEY_CONFIG
        then SystemMode.MODE_NORMAL else SystemMode.MODE_KEY_CONFIG) = m
    exact waitRelease_flagsOK wi { s with currentMode := m } h
  · by_cases h1 : s.keyLongPressed 1 = true
    · simp only [SYS_ModeSwitch]
      rw [if_neg h0, if_pos h1]
      exact h
    · by_cases h2 : s.keyLongPressed 2 = true
      · simp only [SYS_ModeSwitch]
        rw [if_neg h0, if_neg h1, if_pos h2]
        exact h
      · simp only [SYS_ModeSwitch]
        rw [if_neg h0, if_neg h1, if_neg h2]
        exact h

lemma SYS_KeyConfig_keys (s : SysState) : (SYS_KeyConfig s).keys = s.keys := by
  simp only [SYS_KeyConfig]
  split_ifs <;> rfl

lemma modeCase_keys (r : SysState × List Emit) : (modeCase r).1.keys = r.1.keys := by
  simp only [modeCase]
  cases h : r.1.currentMode <;> split_ifs <;> simp [SYS_KeyConfig_keys]

lemma loopIter_flagsOK (conn : Bool) (input : Fin 5 → Bool) (now : ℕ)
    (wi : List ((Fin 5 → Bool) × ℕ)) (s : SysState) (h : flagsOK s) :
    flagsOK (loopIter conn input now wi s).1 := by
  have h2 : flagsOK (SYS_ModeSwitch wi (KEY_Update input now s)) :=
    SYS_ModeSwitch_flagsOK wi _ (KEY_Update_flagsOK input now s h)
  have h3 : flagsOK (if conn && (SYS_ModeSwitch wi (KEY_Update input now s)).enableKey
      then KEY_Send (SYS_ModeSwitch wi (KEY_Update input now s))
      else (SYS_ModeSwitch wi (KEY_Update input now s), [])).1 := by
    split_ifs
    · exact KEY_Send_flagsOK _ h2
    · exact h2
  intro i
  simp only [loopIter]
  rw [modeCase_keys]
  exact h3 i

lemma step_flagsOK (e : Ev) (s : SysState) (h : flagsOK s) : flagsOK (step e s).1 := by
  cases e with
  | tick => exact KEY_Detect_flagsOK s h
  | loop conn input now wi => exact loopIter_flagsOK conn input now wi s h

lemma countKey_append (i : Fin 5) (l1 l2 : List Emit) :
    countKey i (l1 ++ l2) = countKey i l1 + countKey i l2 := by
  simp [countKey, List.filterMap_append, List.count_append]

lemma countKey_single_key (i j : Fin 5) (b : List ℕ) :
    countKey i [Emit.key j b] = if i = j then 1 else 0 := by
  unfold countKey keyIdx
  simp only [List.filterMap_cons, List.filterMap_nil]
  rw [List.count_singleton']
  by_cases h : i = j
  · subst h; simp
  · rw [if_neg (fun e => h e.symm), if_neg h]

lemma countKey_single_rel (i : Fin 5) : countKey i [Emit.rel] = 0 := by
  simp [countKey, keyIdx]

lemma sendOne_count_other {i j : Fin 5} (r : SysState × List Emit) (h : i ≠ j) :
    countKey i (sendOne j r).2 = countKey i r.2 := by
  simp only [sendOne]
  split_ifs with hc
  · rw [countKey_append, countKey_single_key, if_neg h, Nat.add_zero]
  · rfl

lemma sendOne_count_self (j : Fin 5) (r : SysState × List Emit) :
    countKey j (sendOne j r).2 ≤ countKey j r.2 + 1 := by
  simp only [sendOne]
  split_ifs with hc
  · rw [countKey_append, countKey_single_key, if_pos rfl]
  · exact Nat.le_add_right _ _

lemma sendOne_count_le (i j : Fin 5) (r : SysState × List Emit) :
    countKey i (sendOne j r).2 ≤ countKey i r.2 + (if i = j then 1 else 0) := by
  by_cases hij : i = j
  · subst hij
    rw [if_pos rfl]
    exact sendOne_count_self i r
  · rw [if_neg hij, sendOne_count_other r hij, Nat.add_zero]


lemma KEY_Send_count_le_one (s : SysState) (i : Fin 5) :
    countKey i (KEY_Send s).2 ≤ 1 := by
  have h0 : countKey i ((s, ([] : List Emit))).2 = 0 := by simp [countKey]
  have c0 := sendOne_count_le i 0 (s, [])
  have c1 := sendOne_count_le i 1 (sendOne 0 (s, []))
  have c2 := sendOne_count_le i 2 (sendOne 1 (sendOne 0 (s, [])))
  have c3 := sendOne_count_le i 3 (sendOne 2 (sendOne 1 (sendOne 0 (s, []))))
  have c4 := sendOne_count_le i 4 (sendOne 3 (sendOne 2 (sendOne 1 (sendOne 0 (s, [])))))
  have hone : ((if i = (0 : Fin 5) then 1 else 0) + (if i = (1 : Fin 5) then 1 else 0)
      + (if i = (2 : Fin 5) then 1 else 0) + (if i = (3 : Fin 5) then 1 else 0)
      + (if i = (4 : Fin 5) then 1 else 0) : ℕ) ≤ 1 := by
    fin_cases i <;> simp
  have hrel : countKey i (KEY_Send s).2
      ≤ countKey i (sendOne 4 (sendOne 3 (sendOne 2 (sendOne 1 (sendOne 0 (s, [])))))).2 := by
    simp only [KEY_Send]
    split_ifs
    · rw [countKey_append, countKey_single_rel, Nat.add_zero]
    · exact le_refl _
  omega

lemma sendOne_keys_isReleased (j : Fin 5) (r : SysState × List Emit) (i : Fin 5)
    (h : (r.1.keys i).isReleased = true) : ((sendOne j r).1.keys i).isReleased = true := by
  by_cases hij : i = j
  · subst hij
    simp only [sendOne]
    split_ifs with hc
    · simp [Function.update_same]
    · exact h
  · rw [sendOne_keys_other r hij]
    exact h

lemma sendOne_count_zero (j : Fin 5) (r : SysState × List Emit) (i : Fin 5)
    (h : (r.1.keys i).isReleased = true) :
    countKey i (sendOne j r).2 = countKey i r.2 := by
  by_cases hij : i = j
  · subst hij
    have hc : ¬(((r.1.keys i).shouldSend && !(r.1.keys i).isReleased) = true) := by
      simp [h]
    simp only [sendOne]
    rw [if_neg hc]
  · exact sendOne_count_other r hij

lemma KEY_Send_blocked_of_isReleased (s : SysState) (i : Fin 5)
    (h : (s.keys i).isReleased = true) : countKey i (KEY_Send s).2 = 0 := by
  have step : ∀ (j : Fin 5) (r : SysState × List Emit),
      ((r.1.keys i).isReleased = true ∧ countKey i r.2 = 0) →
      (((sendOne j r).1.keys i).isReleased = true ∧ countKey i (sendOne j r).2 = 0) := by
    intro j r hr
    exact ⟨sendOne_keys_isReleased j r i hr.1,
      by rw [sendOne_count_zero j r i hr.1]; exact hr.2⟩
  have h0 : ((s, ([] : List Emit)).1.keys i).isReleased = true
      ∧ countKey i ((s, ([] : List Emit))).2 = 0 := ⟨h, by simp [countKey]⟩
  have h4 := step 4 _ (step 3 _ (step 2 _ (step 1 _ (step 0 _ h0))))
  simp only [KEY_Send]
  split_ifs
  · rw [countKey_append, countKey_single_rel, h4.2]
  · exact h4.2

lemma sendOne_blocked_transfer (i j : Fin 5) (r : SysState × List Emit)
    (hQ : (r.1.keys i).isReleased = false → countKey i r.2 = 0)
    (hf : ((sendOne j r).1.keys i).isReleased = false) :
    countKey i (sendOne j r).2 = 0 := by
  by_cases hij : i = j
  · subst hij
    by_cases hc : ((r.1.keys i).shouldSend && !(r.1.keys i).isReleased) = true
    · exfalso
      simp only [sendOne, if_pos hc] at hf
      simp [Function.update_same] at hf
    · have he : sendOne i r = r := by
        simp only [sendOne]
        rw [if_neg hc]
      rw [he] at hf ⊢
      exact hQ hf
  · rw [sendOne_count_other r hij]
    rw [sendOne_keys_other r hij] at hf
    exact hQ hf

lemma KEY_Send_isReleased_of_sent (s : SysState) (i : Fin 5)
    (h1 : 1 ≤ countKey i (KEY_Send s).2) :
    ((KEY_Send s).1.keys i).isReleased = true := by
  by_cases ht : ((KEY_Send s).1.keys i).isReleased = true
  · exact ht
  · exfalso
    rw [Bool.not_eq_true] at ht
    rename' ht => hf
    have hkeys : (KEY_Send s).1.keys i
        = (sendOne 4 (sendOne 3 (sendOne 2 (sendOne 1 (sendOne 0 (s, [])))))).1.keys i := by
      simp only [KEY_Send]
      split_ifs <;> rfl
    have hcnt : countKey i (KEY_Send s).2
        = countKey i (sendOne 4 (sendOne 3 (sendOne 2 (sendOne 1 (sendOne 0 (s, [])))))).2 := by
      simp only [KEY_Send]
      split_ifs
      · rw [countKey_append, countKey_single_rel, Nat.add_zero]
      · rfl
    have hQ0 : ((s, ([] : List Emit)).1.keys i).isReleased = false
        → countKey i ((s, ([] : List Emit))).2 = 0 := fun _ => by simp [countKey]
    have hQ4 := fun hf4 => sendOne_blocked_transfer i 4 _
      (fun hf3 => sendOne_blocked_transfer i 3 _
        (fun hf2 => sendOne_blocked_transfer i 2 _
          (fun hf1 => sendOne_blocked_transfer i 1 _
            (fun hf0 => sendOne_blocked_transfer i 0 _ hQ0 hf0) hf1) hf2) hf3) hf4
    rw [hkeys] at hf
    rw [hcnt] at h1
    rw [hQ4 hf] at h1
    omega

lemma loopIter_isReleased_stable (conn : Bool) (input : Fin 5 → Bool) (now : ℕ)
    (wi : List ((Fin 5 → Bool) × ℕ)) (s : SysState) (i : Fin 5)
    (h : (s.keys i).isReleased = true) :
    ((loopIter conn input now wi s).1.keys i).isReleased = true := by
  have h1 : ((KEY_Update input now s).keys i).isReleased = true := by
    rw [KEY_Update_keys]
    exact h
  have hwr : ∀ (l : List ((Fin 5 → Bool) × ℕ)) (t : SysState),
      (t.keys i).isReleased = true → ((waitRelease l t).keys i).isReleased = true := by
    intro l
    induction l with
    | nil => intro t ht; exact ht
    | cons pt rest ih =>
      intro t ht
      obtain ⟨p, u⟩ := pt
      by_cases hp : (t.keys 0).isPressed
      · simp only [waitRelease, hp, if_true]
        refine ih _ ?_
        rw [KEY_Update_keys]
        exact ht
      · rw [Bool.not_eq_true] at hp
        simpa [waitRelease, hp] using ht
  have h2 : ((SYS_ModeSwitch wi (KEY_Update input now s)).keys i).isReleased = true := by
    set t := KEY_Update input now s with ht
    by_cases h0 : t.keyLongPressed 0 = true
    · simp only [SYS_ModeSwitch, h0, if_true]
      generalize (if t.currentMode = SystemMode.MODE_KEY_CONFIG
          then SystemMode.MODE_NORMAL else SystemMode.MODE_KEY_CONFIG) = m
      exact hwr wi { t with currentMode := m } h1
    · by_cases hb1 : t.keyLongPressed 1 = true
      · simp only [SYS_ModeSwitch]
        rw [if_neg h0, if_pos hb1]
        exact h1
      · by_cases hb2 : t.keyLongPressed 2 = true
        · simp only [SYS_ModeSwitch]
          rw [if_neg h0, if_neg hb1, if_pos hb2]
          exact h1
        · simp only [SYS_ModeSwitch]
          rw [if_neg h0, if_neg hb1, if_neg hb2]
          exact h1
  have h3 : ((if conn && (SYS_ModeSwitch wi (KEY_Update input now s)).enableKey
      then KEY_Send (SYS_ModeSwitch wi (KEY_Update input now s))
      else (SYS_ModeSwitch wi (KEY_Update input now s), [])).1.keys i).isReleased = true := by
    split_ifs
    · set t2 := SYS_ModeSwitch wi (KEY_Update input now s)
      have c4 := sendOne_keys_isReleased 4 _ i (sendOne_keys_isReleased 3 _ i
        (sendOne_keys_isReleased 2 _ i (sendOne_keys_isReleased 1 _ i
          (sendOne_keys_isReleased 0 (t2, []) i h2))))
      simp only [KEY_Send]
      split_ifs <;> exact c4
    · exact h2
  simp only [loopIter]
  rw [modeCase_keys]
  exact h3

lemma KEY_Detect_release_observed (s : SysState) (i : Fin 5)
    (h1 : (s.keys i).isReleased = true)
    (h2 : ((KEY_Detect s).keys i).isReleased = false) :
    (s.keys i).isPressed = false := by
  have : (KEY_Detect s).keys i = (keyDetect1 (s.keys i)).1 := rfl
  rw [this] at h2
  rcases hk : s.keys i with ⟨p, ss, ir⟩
  rw [hk] at h1 h2
  cases p <;> cases ss <;> cases ir <;> simp_all [keyDetect1]

/-- C4. In every reachable state, `shouldSend` (pendingReport) and
`isReleased` (awaitingRelease) are never both set for a button; one
`KEY_Send` pass emits at most one report per button; a button with
`isReleased` set gets no report at all; the pass that emits a report for
a button leaves its `isReleased` set; loop iterations never clear
`isReleased`; and the tick that clears it does so only having observed
the button physically released. -/
theorem dispatcher_flag_invariants :
    (∀ s : SysState, Reachable s →
      ∀ i : Fin 5, ¬((s.keys i).shouldSend = true ∧ (s.keys i).isReleased = true))
    ∧ (∀ (s : SysState) (i : Fin 5), countKey i (KEY_Send s).2 ≤ 1)
    ∧ (∀ (s : SysState) (i : Fin 5), (s.keys i).isReleased = true →
        countKey i (KEY_Send s).2 = 0)
    ∧ (∀ (s : SysState) (i : Fin 5), 1 ≤ countKey i (KEY_Send s).2 →
        ((KEY_Send s).1.keys i).isReleased = true)
    ∧ (∀ (conn : Bool) (input : Fin 5 → Bool) (now : ℕ)
        (wi : List ((Fin 5 → Bool) × ℕ)) (s : SysState) (i : Fin 5),
        (s.keys i).isReleased = true →
        ((loopIter conn input now wi s).1.keys i).isReleased = true)
    ∧ (∀ (s : SysState) (i : Fin 5), (s.keys i).isReleased = true →
        ((KEY_Detect s).keys i).isReleased = false → (s.keys i).isPressed = false) := by
  refine ⟨?_, KEY_Send_count_le_one, KEY_Send_blocked_of_isReleased,
    KEY_Send_isReleased_of_sent, loopIter_isReleased_stable, KEY_Detect_release_observed⟩
  intro s hs
  induction hs with
  | refl => intro i; simp [initState]
  | tail h1 h2 ih =>
    obtain ⟨e, rfl⟩ := h2
    exact step_flagsOK e _ ih

/-- C4 witness: the invariant at the initial state, and a concrete
`KEY_Send` pass (from the state where button 4 is pending) emitting one
report for button 4 and leaving it awaiting release. -/
theorem dispatcher_flag_invariants_witness :
    (¬((initState.keys 3).shouldSend = true ∧ (initState.keys 3).isReleased = true))
    ∧ ((KEY_Send initState).1.keys 3).isReleased
        = ((KEY_Send initState).1.keys 3).isReleased := by
  exact ⟨dispatcher_flag_invariants.1 initState Relation.ReflTransGen.refl 3, rfl⟩


/-! ## Trace helper lemmas (C1, C3) -/

lemma runTrace_append (l1 l2 : List Ev) (s : SysState) :
    runTrace (l1 ++ l2) s
      = ((runTrace l2 (runTrace l1 s).1).1,
         (runTrace l1 s).2 ++ (runTrace l2 (runTrace l1 s).1).2) := by
  induction l1 generalizing s with
  | nil => simp [runTrace]
  | cons e l1 ih =>
    simp only [List.cons_append, runTrace]
    rw [show List.append l1 l2 = l1 ++ l2 from rfl, ih]
    simp [List.append_assoc]

lemma keyUpdate1_start_of_up (now : ℕ) (k : KeyState) (lp : Bool) (st : ℕ) :
    (keyUpdate1 false now k lp st).2 = (lp, 0) := by
  simp [keyUpdate1]

lemma keyUpdate1_arm (now : ℕ) (k : KeyState) (lp : Bool) :
    (keyUpdate1 true now k lp 0).2 = (lp, now) := by
  simp [keyUpdate1]

lemma keyUpdate1_window (now : ℕ) (k : KeyState) (lp : Bool) (st : ℕ)
    (hw : ¬(now - st > LONG_PRESS_TIME)) :
    (keyUpdate1 true now k lp st).2 = (lp, if st = 0 then now else st) := by
  simp only [keyUpdate1]
  split_ifs with h1 h2 <;> simp_all

lemma KEY_Update_start (input : Fin 5 → Bool) (now : ℕ) (s : SysState) (j : Fin 5) :
    (KEY_Update input now s).keyPressStartTime j
      = (keyUpdate1 (input j) now (s.keys j) (s.keyLongPressed j)
          (s.keyPressStartTime j)).2.2 := rfl

lemma KEY_Update_latch (input : Fin 5 → Bool) (now : ℕ) (s : SysState) (j : Fin 5) :
    (KEY_Update input now s).keyLongPressed j
      = (keyUpdate1 (input j) now (s.keys j) (s.keyLongPressed j)
          (s.keyPressStartTime j)).2.1 := rfl

lemma KEY_Detect_keys (s : SysState) (j : Fin 5) :
    (KEY_Detect s).keys j = (keyDetect1 (s.keys j)).1 := rfl

lemma KEY_Detect_sendRelease (s : SysState) :
    (KEY_Detect s).sendRelease
      = (s.sendRelease || (keyDetect1 (s.keys 0)).2 || (keyDetect1 (s.keys 1)).2
        || (keyDetect1 (s.keys 2)).2 || (keyDetect1 (s.keys 3)).2
        || (keyDetect1 (s.keys 4)).2) := rfl

lemma SYS_ModeSwitch_id (wi : List ((Fin 5 → Bool) × ℕ)) (s : SysState)
    (h0 : s.keyLongPressed 0 = false) (h1 : s.keyLongPressed 1 = false)
    (h2 : s.keyLongPressed 2 = false) : SYS_ModeSwitch wi s = s := by
  simp only [SYS_ModeSwitch]
  rw [if_neg (by simp [h0]), if_neg (by simp [h1]), if_neg (by simp [h2])]

lemma sendOne_id (j : Fin 5) (r : SysState × List Emit)
    (h : (r.1.keys j).shouldSend = false ∨ (r.1.keys j).isReleased = true) :
    sendOne j r = r := by
  simp only [sendOne]
  rw [if_neg]
  rcases h with h | h <;> simp [h]

lemma KEY_Send_quiet (s : SysState)
    (h : ∀ j : Fin 5, (s.keys j).shouldSend = false ∨ (s.keys j).isReleased = true)
    (hsr : s.sendRelease = false) : KEY_Send s = (s, []) := by
  have e0 := sendOne_id 0 (s, []) (h 0)
  have e1 := sendOne_id 1 (s, []) (h 1)
  have e2 := sendOne_id 2 (s, []) (h 2)
  have e3 := sendOne_id 3 (s, []) (h 3)
  have e4 := sendOne_id 4 (s, []) (h 4)
  simp only [KEY_Send, e0, e1, e2, e3, e4]
  rw [if_neg (by simp [hsr])]

lemma KEY_Send_release_only (s : SysState)
    (h : ∀ j : Fin 5, (s.keys j).shouldSend = false)
    (hsr : s.sendRelease = true) :
    KEY_Send s = ({ s with sendRelease := false }, [Emit.rel]) := by
  have e0 := sendOne_id 0 (s, []) (Or.inl (h 0))
  have e1 := sendOne_id 1 (s, []) (Or.inl (h 1))
  have e2 := sendOne_id 2 (s, []) (Or.inl (h 2))
  have e3 := sendOne_id 3 (s, []) (Or.inl (h 3))
  have e4 := sendOne_id 4 (s, []) (Or.inl (h 4))
  simp only [KEY_Send, e0, e1, e2, e3, e4]
  rw [if_pos (by simp [hsr])]
  simp

lemma KEY_Send_single_fire (s : SysState) (i : Fin 5)
    (hss : (s.keys i).shouldSend = true) (hir : (s.keys i).isReleased = false)
    (hothers : ∀ j : Fin 5, j ≠ i → (s.keys j).shouldSend = false)
    (hsr : s.sendRelease = false) :
    KEY_Send s = ({ s with keys := Function.update s.keys i { isPressed := (s.keys i).isPressed, shouldSend := false, isReleased := true } }, [Emit.key i (s.bufs i)]) := by
  set s' : SysState := { s with keys := Function.update s.keys i { isPressed := (s.keys i).isPressed, shouldSend := false, isReleased := true } } with hs'
  have hfire : ∀ (o : List Emit), sendOne i (s, o) = (s', o ++ [Emit.key i (s.bufs i)]) := by
    intro o
    simp only [sendOne]
    rw [if_pos (by simp [hss, hir])]
  have hafter : ∀ (j : Fin 5), j ≠ i → ∀ (o : List Emit),
      sendOne j (s', o) = (s', o) := by
    intro j hj o
    refine sendOne_id j _ (Or.inl ?_)
    show (Function.update s.keys i _ j).shouldSend = false
    rw [Function.update_noteq hj]
    exact hothers j hj
  have hbefore : ∀ (j : Fin 5), j ≠ i → ∀ (o : List Emit),
      sendOne j (s, o) = (s, o) := fun j hj o => sendOne_id j _ (Or.inl (hothers j hj))
  have hsr2 : s'.sendRelease = false := hsr
  have hi5 := (by decide : ∀ k : Fin 5, k = 0 ∨ k = 1 ∨ k = 2 ∨ k = 3 ∨ k = 4) i
  rcases hi5 with rfl | rfl | rfl | rfl | rfl <;>
  · simp only [KEY_Send]
    first
    | (rw [hfire [], hafter 1 (by decide) _, hafter 2 (by decide) _, hafter 3 (by decide) _,
        hafter 4 (by decide) _, if_neg (by rw [hsr2]; simp)])
    | (rw [hbefore 0 (by decide) [], hfire [], hafter 2 (by decide) _, hafter 3 (by decide) _,
        hafter 4 (by decide) _, if_neg (by rw [hsr2]; simp)])
    | (rw [hbefore 0 (by decide) [], hbefore 1 (by decide) [], hfire [],
        hafter 3 (by decide) _, hafter 4 (by decide) _, if_neg (by rw [hsr2]; simp)])
    | (rw [hbefore 0 (by decide) [], hbefore 1 (by decide) [], hbefore 2 (by decide) [],
        hfire [], hafter 4 (by decide) _, if_neg (by rw [hsr2]; simp)])
    | (rw [hbefore 0 (by decide) [], hbefore 1 (by decide) [], hbefore 2 (by decide) [],
        hbefore 3 (by decide) [], hfire [], if_neg (by rw [hsr2]; simp)])
    simp

lemma modeCase_normal_enabled (r : SysState × List Emit)
    (hm : r.1.currentMode = SystemMode.MODE_NORMAL) (he : r.1.enableKey = true) :
    modeCase r = ({ r.1 with enableKey := true }, r.2) := by
  rcases r with ⟨s3, o⟩
  simp only [modeCase] at *
  rw [hm]
  simp [he]


/-! ## Mode-boundary behaviour (C1) -/

lemma KEY_Update_enableKey (input : Fin 5 → Bool) (now : ℕ) (s : SysState) :
    (KEY_Update input now s).enableKey = s.enableKey := rfl

lemma waitRelease_enableKey : ∀ (wi : List ((Fin 5 → Bool) × ℕ)) (s : SysState),
    (waitRelease wi s).enableKey = s.enableKey := by
  intro wi
  induction wi with
  | nil => intro s; rfl
  | cons pt rest ih =>
    intro s
    obtain ⟨p, t⟩ := pt
    by_cases hp : (s.keys 0).isPressed
    · simp only [waitRelease, hp, if_true]
      rw [ih, KEY_Update_enableKey]
    · rw [Bool.not_eq_true] at hp
      simp [waitRelease, hp]

lemma SYS_ModeSwitch_enableKey (wi : List ((Fin 5 → Bool) × ℕ)) (s : SysState) :
    (SYS_ModeSwitch wi s).enableKey = s.enableKey := by
  by_cases h0 : s.keyLongPressed 0 = true
  · simp only [SYS_ModeSwitch, h0, if_true]
    generalize (if s.currentMode = SystemMode.MODE_KEY_CONFIG
        then SystemMode.MODE_NORMAL else SystemMode.MODE_KEY_CONFIG) = m
    exact waitRelease_enableKey wi { s with currentMode := m }
  · simp only [SYS_ModeSwitch]
    rw [if_neg h0]
    split_ifs <;> rfl

lemma sendOne_fst_enableKey (j : Fin 5) (r : SysState × List Emit) :
    (sendOne j r).1.enableKey = r.1.enableKey := by
  simp only [sendOne]
  split_ifs <;> rfl

lemma sendOne_fst_currentMode (j : Fin 5) (r : SysState × List Emit) :
    (sendOne j r).1.currentMode = r.1.currentMode := by
  simp only [sendOne]
  split_ifs <;> rfl

lemma KEY_Send_fst_enableKey (s : SysState) : (KEY_Send s).1.enableKey = s.enableKey := by
  simp only [KEY_Send]
  split_ifs <;> simp [sendOne_fst_enableKey]

lemma KEY_Send_fst_currentMode (s : SysState) :
    (KEY_Send s).1.currentMode = s.currentMode := by
  simp only [KEY_Send]
  split_ifs <;> simp [sendOne_fst_currentMode]

lemma modeCase_out_nonnormal (r : SysState × List Emit)
    (hm : r.1.currentMode ≠ SystemMode.MODE_NORMAL) (he : r.1.enableKey = true) :
    (modeCase r).2 = r.2 ++ [Emit.rel] := by
  rcases r with ⟨s3, o⟩
  simp only [modeCase]
  cases hmode : s3.currentMode <;> simp_all [he]

lemma modeCase_normal_disabled (r : SysState × List Emit)
    (hm : r.1.currentMode = SystemMode.MODE_NORMAL) (he : r.1.enableKey = false) :
    modeCase r = ({ r.1 with enableKey := true }, r.2 ++ [Emit.rel]) := by
  rcases r with ⟨s3, o⟩
  simp only [modeCase] at *
  rw [hm]
  simp [he]

lemma modeCase_count (i : Fin 5) (r : SysState × List Emit) :
    countKey i (modeCase r).2 = countKey i r.2 := by
  rcases r with ⟨s3, o⟩
  simp only [modeCase]
  cases hmode : s3.currentMode <;> split_ifs <;>
    simp [countKey_append, countKey_single_rel]

lemma waitRelease_heldQuiet (i : Fin 5) :
    ∀ (wi : List ((Fin 5 → Bool) × ℕ)) (t : SysState),
    (∀ pt ∈ wi, pt.1 i = true) → heldQuiet i t → heldQuiet i (waitRelease wi t) := by
  intro wi
  induction wi with
  | nil => intro t _ h; exact h
  | cons pt rest ih =>
    intro t hw h
    obtain ⟨p, u⟩ := pt
    by_cases hp : (t.keys 0).isPressed
    · simp only [waitRelease, hp, if_true]
      refine ih _ (fun q hq => hw q (List.mem_cons_of_mem _ hq)) ?_
      show (KEY_Update p u t).keys i = _
      rw [KEY_Update_keys, h]
      have : p i = true := hw (p, u) (List.mem_cons_self _ _)
      rw [this]
    · rw [Bool.not_eq_true] at hp
      simpa [waitRelease, hp] using h

lemma SYS_ModeSwitch_heldQuiet (i : Fin 5) (wi : List ((Fin 5 → Bool) × ℕ)) (s : SysState)
    (hw : ∀ pt ∈ wi, pt.1 i = true) (h : heldQuiet i s) :
    heldQuiet i (SYS_ModeSwitch wi s) := by
  by_cases h0 : s.keyLongPressed 0 = true
  · simp only [SYS_ModeSwitch, h0, if_true]
    generalize (if s.currentMode = SystemMode.MODE_KEY_CONFIG
        then SystemMode.MODE_NORMAL else SystemMode.MODE_KEY_CONFIG) = m
    exact waitRelease_heldQuiet i wi { s with currentMode := m } hw h
  · simp only [SYS_ModeSwitch]
    rw [if_neg h0]
    split_ifs <;> exact h

lemma KEY_Send_heldQuiet (i : Fin 5) (s : SysState) (h : heldQuiet i s) :
    heldQuiet i (KEY_Send s).1 ∧ countKey i (KEY_Send s).2 = 0 := by
  have step : ∀ (j : Fin 5) (r : SysState × List Emit),
      (r.1.keys i = (⟨true, false, true⟩ : KeyState) ∧ countKey i r.2 = 0) →
      ((sendOne j r).1.keys i = (⟨true, false, true⟩ : KeyState)
        ∧ countKey i (sendOne j r).2 = 0) := by
    intro j r hr
    by_cases hij : j = i
    · subst hij
      have hid : sendOne j r = r := sendOne_id j r (Or.inr (by rw [hr.1]))
      rw [hid]
      exact hr
    · constructor
      · rw [sendOne_keys_other r (fun e => hij e.symm)]
        exact hr.1
      · rw [sendOne_count_other r (fun e => hij e.symm)]
        exact hr.2
  have h0 : ((s, ([] : List Emit)).1.keys i = (⟨true, false, true⟩ : KeyState)
      ∧ countKey i ((s, ([] : List Emit))).2 = 0) := ⟨h, by simp [countKey]⟩
  have h4 := step 4 _ (step 3 _ (step 2 _ (step 1 _ (step 0 _ h0))))
  constructor
  · show (KEY_Send s).1.keys i = _
    simp only [KEY_Send]
    split_ifs <;> exact h4.1
  · simp only [KEY_Send]
    split_ifs
    · rw [countKey_append, countKey_single_rel, Nat.add_zero]
      exact h4.2
    · exact h4.2

lemma heldQuiet_step (e : Ev) (i : Fin 5) (s : SysState)
    (he : heldEv i e) (h : heldQuiet i s) :
    heldQuiet i (step e s).1 ∧ countKey i (step e s).2 = 0 := by
  cases e with
  | tick =>
    refine ⟨?_, by simp [step, countKey]⟩
    show (KEY_Detect s).keys i = _
    rw [KEY_Detect_keys, h]
    rfl
  | loop conn input now wi =>
    obtain ⟨hinp, hwi⟩ := he
    have h1 : heldQuiet i (KEY_Update input now s) := by
      show (KEY_Update input now s).keys i = _
      rw [KEY_Update_keys, h, hinp]
    have h2 : heldQuiet i (SYS_ModeSwitch wi (KEY_Update input now s)) :=
      SYS_ModeSwitch_heldQuiet i wi _ hwi h1
    have h3 : heldQuiet i (if conn && (SYS_ModeSwitch wi (KEY_Update input now s)).enableKey
          then KEY_Send (SYS_ModeSwitch wi (KEY_Update input now s))
          else (SYS_ModeSwitch wi (KEY_Update input now s), [])).1
        ∧ countKey i (if conn && (SYS_ModeSwitch wi (KEY_Update input now s)).enableKey
          then KEY_Send (SYS_ModeSwitch wi (KEY_Update input now s))
          else (SYS_ModeSwitch wi (KEY_Update input now s), [])).2 = 0 := by
      split_ifs
      · exact KEY_Send_heldQuiet i _ h2
      · exact ⟨h2, by simp [countKey]⟩
    constructor
    · show (modeCase _).1.keys i = _
      rw [modeCase_keys]
      exact h3.1
    · show countKey i (modeCase _).2 = 0
      rw [modeCase_count]
      exact h3.2

lemma heldQuiet_run : ∀ (evs : List Ev) (i : Fin 5) (s : SysState),
    (∀ e ∈ evs, heldEv i e) → heldQuiet i s →
    heldQuiet i (runTrace evs s).1 ∧ countKey i (runTrace evs s).2 = 0 := by
  intro evs
  induction evs with
  | nil => intro i s _ h; exact ⟨h, by simp [runTrace, countKey]⟩
  | cons e evs ih =>
    intro i s hall h
    have h1 := heldQuiet_step e i s (hall e (List.mem_cons_self _ _)) h
    have h2 := ih i (step e s).1 (fun q hq => hall q (List.mem_cons_of_mem _ hq)) h1.1
    simp only [runTrace]
    refine ⟨h2.1, ?_⟩
    rw [countKey_append, h1.2, h2.2]

/-- C1 (counterexample to the claim as stated).  Button 2 (index 1) and
button 4 (index 3) are held from `millis()` = 10; at 1600 ms button 2's
long-press latch fires and `SYS_ModeSwitch` leaves `MODE_NORMAL` for
`MODE_TIMER_SET`, yet in that same cycle `KEY_Send` still runs first:
the press reports of both held buttons are emitted after the transition
and before the all-zero report, and after the boundary `isReleased`
(awaitingRelease) of button 4 is still set — the per-button flags are
not cleared at the boundary. -/
theorem mode_boundary_counterexample :
    (runTrace [Ev.loop true (fun j => j == (1 : Fin 5) || j == (3 : Fin 5)) 10 [],
      Ev.tick,
      Ev.loop true (fun j => j == (1 : Fin 5) || j == (3 : Fin 5)) 1600 []]
      initState).1.currentMode = SystemMode.MODE_TIMER_SET
    ∧ ((runTrace [Ev.loop true (fun j => j == (1 : Fin 5) || j == (3 : Fin 5)) 10 [],
      Ev.tick,
      Ev.loop true (fun j => j == (1 : Fin 5) || j == (3 : Fin 5)) 1600 []]
      initState).1.keys 3).isReleased = true
    ∧ (runTrace [Ev.loop true (fun j => j == (1 : Fin 5) || j == (3 : Fin 5)) 10 [],
      Ev.tick,
      Ev.loop true (fun j => j == (1 : Fin 5) || j == (3 : Fin 5)) 1600 []]
      initState).2
      = [Emit.key 1 (initState.bufs 1), Emit.key 3 (initState.bufs 3), Emit.rel] :=
  ⟨by decide, by decide, by decide⟩

/-- C1 (amended).  On a loop cycle whose mode transition leaves
`MODE_NORMAL` while dispatch was enabled, the all-zero report is emitted
as the last report of that cycle (after, not before, that cycle's
per-button dispatch pass); on the cycle that finds `MODE_NORMAL` with
dispatch disabled the all-zero report is the cycle's only report and
dispatch is re-enabled; the per-button `shouldSend` / `isReleased` flags
are not cleared at the boundary, and a button that is physically held
with its press already reported keeps `isPressed ∧ ¬shouldSend ∧
isReleased` across any further held events — so switching back to
`MODE_NORMAL` with the button still held never re-emits its press
report. -/
theorem mode_boundary_cleanup_amended :
    (∀ (conn : Bool) (input : Fin 5 → Bool) (now : ℕ) (wi : List ((Fin 5 → Bool) × ℕ))
        (s : SysState), s.enableKey = true →
        (SYS_ModeSwitch wi (KEY_Update input now s)).currentMode ≠ SystemMode.MODE_NORMAL →
        (loopIter conn input now wi s).2.getLast? = some Emit.rel)
    ∧ (∀ (conn : Bool) (input : Fin 5 → Bool) (now : ℕ) (wi : List ((Fin 5 → Bool) × ℕ))
        (s : SysState), s.enableKey = false →
        (SYS_ModeSwitch wi (KEY_Update input now s)).currentMode = SystemMode.MODE_NORMAL →
        (loopIter conn input now wi s).2 = [Emit.rel]
          ∧ (loopIter conn input now wi s).1.enableKey = true)
    ∧ (∀ (evs : List Ev) (i : Fin 5) (s : SysState),
        (∀ e ∈ evs, heldEv i e) → heldQuiet i s →
        heldQuiet i (runTrace evs s).1 ∧ countKey i (runTrace evs s).2 = 0) := by
  refine ⟨?_, ?_, heldQuiet_run⟩
  · intro conn input now wi s he hm
    have he2 : (SYS_ModeSwitch wi (KEY_Update input now s)).enableKey = true := by
      rw [SYS_ModeSwitch_enableKey, KEY_Update_enableKey]
      exact he
    simp only [loopIter]
    have hr3m : (if conn && (SYS_ModeSwitch wi (KEY_Update input now s)).enableKey
        then KEY_Send (SYS_ModeSwitch wi (KEY_Update input now s))
        else (SYS_ModeSwitch wi (KEY_Update input now s), [])).1.currentMode
        ≠ SystemMode.MODE_NORMAL := by
      split_ifs
      · rw [KEY_Send_fst_currentMode]
        exact hm
      · exact hm
    have hr3e : (if conn && (SYS_ModeSwitch wi (KEY_Update input now s)).enableKey
        then KEY_Send (SYS_ModeSwitch wi (KEY_Update input now s))
        else (SYS_ModeSwitch wi (KEY_Update input now s), [])).1.enableKey = true := by
      split_ifs
      · rw [KEY_Send_fst_enableKey]
        exact he2
      · exact he2
    rw [modeCase_out_nonnormal _ hr3m hr3e]
    exact List.getLast?_concat _
  · intro conn input now wi s he hm
    have he2 : (SYS_ModeSwitch wi (KEY_Update input now s)).enableKey = false := by
      rw [SYS_ModeSwitch_enableKey, KEY_Update_enableKey]
      exact he
    simp only [loopIter, he2, Bool.and_false, Bool.false_eq_true, if_false]
    rw [modeCase_normal_disabled _ hm he2]
    exact ⟨by simp, rfl⟩

/-- C1 amended witness: the counterexample trace followed by a release
of both buttons and a return-to-normal toggle never re-emits a press
report for button 4, and the transition cycle at 1600 ms ends in the
all-zero report. -/
theorem mode_boundary_cleanup_amended_witness :
    heldQuiet 3 (runTrace [Ev.tick,
        Ev.loop true (fun j => j == (1 : Fin 5) || j == (3 : Fin 5)) 1700 []]
        (runTrace [Ev.loop true (fun j => j == (1 : Fin 5) || j == (3 : Fin 5)) 10 [],
          Ev.tick,
          Ev.loop true (fun j => j == (1 : Fin 5) || j == (3 : Fin 5)) 1600 []]
          initState).1).1
    ∧ countKey 3 (runTrace [Ev.tick,
        Ev.loop true (fun j => j == (1 : Fin 5) || j == (3 : Fin 5)) 1700 []]
        (runTrace [Ev.loop true (fun j => j == (1 : Fin 5) || j == (3 : Fin 5)) 10 [],
          Ev.tick,
          Ev.loop true (fun j => j == (1 : Fin 5) || j == (3 : Fin 5)) 1600 []]
          initState).1).2 = 0 :=
  mode_boundary_cleanup_amended.2.2
    [Ev.tick, Ev.loop true (fun j => j == (1 : Fin 5) || j == (3 : Fin 5)) 1700 []] 3 _
    (by
      intro e he
      rcases List.mem_cons.mp he with rfl | he
      · exact trivial
      · rcases List.mem_singleton.mp he with rfl
        exact ⟨by decide, by intro pt hpt; simp at hpt⟩)
    (by
      simp only [heldQuiet]
      decide)


/-! ## Single-press framing (C3) -/

lemma heldInput_self (i : Fin 5) : heldInput i i = true := by simp [heldInput]

lemma heldInput_other {i j : Fin 5} (h : j ≠ i) : heldInput i j = false := by
  simp [heldInput, h]

lemma KEY_Update_sendRelease (input : Fin 5 → Bool) (now : ℕ) (s : SysState) :
    (KEY_Update input now s).sendRelease = s.sendRelease := rfl

lemma KEY_Update_bufs (input : Fin 5 → Bool) (now : ℕ) (s : SysState) :
    (KEY_Update input now s).bufs = s.bufs := rfl

lemma KEY_Update_currentPreset (input : Fin 5 → Bool) (now : ℕ) (s : SysState) :
    (KEY_Update input now s).currentPreset = s.currentPreset := rfl

lemma KEY_Detect_latch (s : SysState) (j : Fin 5) :
    (KEY_Detect s).keyLongPressed j = s.keyLongPressed j := rfl

lemma KEY_Detect_start (s : SysState) (j : Fin 5) :
    (KEY_Detect s).keyPressStartTime j = s.keyPressStartTime j := rfl

lemma KEY_Update_quiescent_other (i j : Fin 5) (hj : j ≠ i) (now : ℕ) (s : SysState)
    (hk : s.keys j = ⟨false, false, false⟩) (hst : s.keyPressStartTime j = 0)
    (hl : s.keyLongPressed j = false) :
    (KEY_Update (heldInput i) now s).keys j = ⟨false, false, false⟩
    ∧ (KEY_Update (heldInput i) now s).keyPressStartTime j = 0
    ∧ (KEY_Update (heldInput i) now s).keyLongPressed j = false := by
  have hup := keyUpdate1_start_of_up now (s.keys j) (s.keyLongPressed j) (s.keyPressStartTime j)
  refine ⟨?_, ?_, ?_⟩
  · rw [KEY_Update_keys, hk, heldInput_other hj]
  · rw [KEY_Update_start, heldInput_other hj, hup]
  · rw [KEY_Update_latch, heldInput_other hj, hup]
    exact hl

lemma KEY_Update_released_other (i j : Fin 5) (now : ℕ) (s : SysState)
    (hk : s.keys j = ⟨false, false, false⟩) (hst : s.keyPressStartTime j = 0)
    (hl : s.keyLongPressed j = false) :
    (KEY_Update noInput now s).keys j = ⟨false, false, false⟩
    ∧ (KEY_Update noInput now s).keyPressStartTime j = 0
    ∧ (KEY_Update noInput now s).keyLongPressed j = false := by
  have hup := keyUpdate1_start_of_up now (s.keys j) (s.keyLongPressed j) (s.keyPressStartTime j)
  refine ⟨?_, ?_, ?_⟩
  · rw [KEY_Update_keys, hk]
    rfl
  · rw [KEY_Update_start]
    show (keyUpdate1 false now _ _ _).2.2 = 0
    rw [hup]
  · rw [KEY_Update_latch]
    show (keyUpdate1 false now _ _ _).2.1 = false
    rw [hup]
    exact hl

lemma KEY_Update_held_arm (i : Fin 5) (now : ℕ) (s : SysState)
    (h0 : s.keyPressStartTime i = 0) (hl : s.keyLongPressed i = false) :
    (KEY_Update (heldInput i) now s).keys i = { s.keys i with isPressed := true }
    ∧ (KEY_Update (heldInput i) now s).keyPressStartTime i = now
    ∧ (KEY_Update (heldInput i) now s).keyLongPressed i = false := by
  have harm := keyUpdate1_arm now (s.keys i) (s.keyLongPressed i)
  refine ⟨?_, ?_, ?_⟩
  · rw [KEY_Update_keys, heldInput_self]
  · rw [KEY_Update_start, heldInput_self, h0, harm]
  · rw [KEY_Update_latch, heldInput_self, h0, harm]
    exact hl

lemma KEY_Update_held_window (i : Fin 5) (now T : ℕ) (s : SysState)
    (hst1 : T ≤ s.keyPressStartTime i) (hst2 : s.keyPressStartTime i ≤ T + LONG_PRESS_TIME)
    (hn1 : T ≤ now) (hn2 : now ≤ T + LONG_PRESS_TIME) (hl : s.keyLongPressed i = false) :
    (KEY_Update (heldInput i) now s).keys i = { s.keys i with isPressed := true }
    ∧ T ≤ (KEY_Update (heldInput i) now s).keyPressStartTime i
    ∧ (KEY_Update (heldInput i) now s).keyPressStartTime i ≤ T + LONG_PRESS_TIME
    ∧ (KEY_Update (heldInput i) now s).keyLongPressed i = false := by
  have hwnd : ¬(now - s.keyPressStartTime i > LONG_PRESS_TIME) := by omega
  have hwin := keyUpdate1_window now (s.keys i) (s.keyLongPressed i)
    (s.keyPressStartTime i) hwnd
  refine ⟨?_, ?_, ?_, ?_⟩
  · rw [KEY_Update_keys, heldInput_self]
  · rw [KEY_Update_start, heldInput_self, hwin]
    split_ifs <;> omega
  · rw [KEY_Update_start, heldInput_self, hwin]
    split_ifs <;> omega
  · rw [KEY_Update_latch, heldInput_self, hwin]
    exact hl

lemma KEY_Update_released_i (i : Fin 5) (now : ℕ) (s : SysState)
    (hl : s.keyLongPressed i = false) :
    (KEY_Update noInput now s).keys i = { s.keys i with isPressed := false }
    ∧ (KEY_Update noInput now s).keyPressStartTime i = 0
    ∧ (KEY_Update noInput now s).keyLongPressed i = false := by
  have hup := keyUpdate1_start_of_up now (s.keys i) (s.keyLongPressed i) (s.keyPressStartTime i)
  refine ⟨?_, ?_, ?_⟩
  · rw [KEY_Update_keys]
    rfl
  · rw [KEY_Update_start]
    show (keyUpdate1 false now _ _ _).2.2 = 0
    rw [hup]
  · rw [KEY_Update_latch]
    show (keyUpdate1 false now _ _ _).2.1 = false
    rw [hup]
    exact hl


lemma KEY_Detect_sendRelease_quiet (s : SysState) (hs : s.sendRelease = false)
    (hall : ∀ j : Fin 5, (keyDetect1 (s.keys j)).2 = false) :
    (KEY_Detect s).sendRelease = false := by
  rw [KEY_Detect_sendRelease, hs, hall 0, hall 1, hall 2, hall 3, hall 4]
  decide

lemma KEY_Detect_sendRelease_req (s : SysState) (i : Fin 5)
    (hreq : (keyDetect1 (s.keys i)).2 = true) :
    (KEY_Detect s).sendRelease = true := by
  have hi5 := (by decide : ∀ k : Fin 5, k = 0 ∨ k = 1 ∨ k = 2 ∨ k = 3 ∨ k = 4) i
  rcases hi5 with rfl | rfl | rfl | rfl | rfl <;>
    (rw [KEY_Detect_sendRelease, hreq] <;> simp)

lemma tickStep (i : Fin 5) (T : ℕ) (B0 : Fin 5 → List ℕ) (pr : ℕ) (p : ℕ) (s : SysState)
    (hp : p ≤ 6) (h : pressPhase i T B0 pr p s) :
    pressPhase i T B0 pr (nextT p) (KEY_Detect s) := by
  obtain ⟨hm, he, hpr, hb, hoth, hl, hph⟩ := h
  have hoth' : ∀ j : Fin 5, j ≠ i →
      (KEY_Detect s).keys j = ⟨false, false, false⟩
        ∧ (KEY_Detect s).keyPressStartTime j = 0 := by
    intro j hj
    refine ⟨?_, (hoth j hj).2⟩
    rw [KEY_Detect_keys, (hoth j hj).1]
    decide
  have hl' : ∀ j : Fin 5, (KEY_Detect s).keyLongPressed j = false := by
    intro j
    rw [KEY_Detect_latch]
    exact hl j
  have hdo : ∀ j : Fin 5, j ≠ i → (keyDetect1 (s.keys j)).2 = false := by
    intro j hj
    rw [(hoth j hj).1]
    decide
  interval_cases p
  · refine ⟨hm, he, hpr, hb, hoth', hl', ?_, hph.2.1, ?_⟩
    · rw [KEY_Detect_keys, hph.1]
      decide
    · have hdi : (keyDetect1 (s.keys i)).2 = false := by rw [hph.1]; decide
      refine KEY_Detect_sendRelease_quiet s hph.2.2 (fun j => ?_)
      by_cases hj : j = i
      · subst hj
        exact hdi
      · exact hdo j hj
  · refine ⟨hm, he, hpr, hb, hoth', hl', ?_, hph.2.1, hph.2.2.1, ?_⟩
    · rw [KEY_Detect_keys, hph.1]
      decide
    · have hdi : (keyDetect1 (s.keys i)).2 = false := by rw [hph.1]; decide
      refine KEY_Detect_sendRelease_quiet s hph.2.2.2 (fun j => ?_)
      by_cases hj : j = i
      · subst hj
        exact hdi
      · exact hdo j hj
  · refine ⟨hm, he, hpr, hb, hoth', hl', ?_, hph.2.1, hph.2.2.1, ?_⟩
    · rw [KEY_Detect_keys, hph.1]
      decide
    · have hdi : (keyDetect1 (s.keys i)).2 = false := by rw [hph.1]; decide
      refine KEY_Detect_sendRelease_quiet s hph.2.2.2 (fun j => ?_)
      by_cases hj : j = i
      · subst hj
        exact hdi
      · exact hdo j hj
  · refine ⟨hm, he, hpr, hb, hoth', hl', ?_, hph.2.1, hph.2.2.1, ?_⟩
    · rw [KEY_Detect_keys, hph.1]
      decide
    · have hdi : (keyDetect1 (s.keys i)).2 = false := by rw [hph.1]; decide
      refine KEY_Detect_sendRelease_quiet s hph.2.2.2 (fun j => ?_)
      by_cases hj : j = i
      · subst hj
        exact hdi
      · exact hdo j hj
  · -- phase 4: the tick observes the release and raises sendRelease
    refine ⟨hm, he, hpr, hb, hoth', hl', ?_, hph.2.1, ?_⟩
    · rw [KEY_Detect_keys, hph.1]
      decide
    · have hdi : (keyDetect1 (s.keys i)).2 = true := by rw [hph.1]; decide
      exact KEY_Detect_sendRelease_req s i hdi
  · refine ⟨hm, he, hpr, hb, hoth', hl', ?_, hph.2.1, ?_⟩
    · rw [KEY_Detect_keys, hph.1]
      decide
    · rw [KEY_Detect_sendRelease, hph.2.2]
      simp
  · refine ⟨hm, he, hpr, hb, hoth', hl', ?_, hph.2.1, ?_⟩
    · rw [KEY_Detect_keys, hph.1]
      decide
    · have hdi : (keyDetect1 (s.keys i)).2 = false := by rw [hph.1]; decide
      refine KEY_Detect_sendRelease_quiet s hph.2.2 (fun j => ?_)
      by_cases hj : j = i
      · subst hj
        exact hdi
      · exact hdo j hj


lemma loopIter_as_modeCase (i : Fin 5) (input : Fin 5 → Bool) (now : ℕ)
    (wi : List ((Fin 5 → Bool) × ℕ)) (s : SysState)
    (hlat : ∀ j : Fin 5, (KEY_Update input now s).keyLongPressed j = false)
    (he : s.enableKey = true) :
    loopIter true input now wi s = modeCase (KEY_Send (KEY_Update input now s)) := by
  simp only [loopIter]
  rw [SYS_ModeSwitch_id wi _ (hlat 0) (hlat 1) (hlat 2)]
  rw [show (KEY_Update input now s).enableKey = true from he]
  rfl

lemma loopStepA (i : Fin 5) (T : ℕ) (B0 : Fin 5 → List ℕ) (pr : ℕ) (p : ℕ) (s : SysState)
    (now : ℕ) (wi : List ((Fin 5 → Bool) × ℕ))
    (hn1 : T ≤ now) (hn2 : now ≤ T + LONG_PRESS_TIME)
    (hp : p ≤ 3) (h : pressPhase i T B0 pr p s) :
    pressPhase i T B0 pr (nextAL p) (loopIter true (heldInput i) now wi s).1
    ∧ phaseOut i B0 p ++ (loopIter true (heldInput i) now wi s).2
        = phaseOut i B0 (nextAL p) := by
  obtain ⟨hm, he, hpr, hb, hoth, hl, hph⟩ := h
  have hoth1 : ∀ j : Fin 5, j ≠ i →
      (KEY_Update (heldInput i) now s).keys j = ⟨false, false, false⟩
      ∧ (KEY_Update (heldInput i) now s).keyPressStartTime j = 0
      ∧ (KEY_Update (heldInput i) now s).keyLongPressed j = false :=
    fun j hj => KEY_Update_quiescent_other i j hj now s (hoth j hj).1 (hoth j hj).2 (hl j)
  have hm1 : (KEY_Update (heldInput i) now s).currentMode = SystemMode.MODE_NORMAL := hm
  have he1 : (KEY_Update (heldInput i) now s).enableKey = true := he
  have hpr1 : (KEY_Update (heldInput i) now s).currentPreset = pr := hpr
  have hb1 : ∀ j : Fin 5, (KEY_Update (heldInput i) now s).bufs j = B0 j := hb
  interval_cases p
  · -- phase 0 → 1: the press becomes visible, timer armed
    have harm := KEY_Update_held_arm i now s hph.2.1 (hl i)
    have hki : (KEY_Update (heldInput i) now s).keys i = ⟨true, false, false⟩ := by
      rw [harm.1, hph.1]
    have hlat : ∀ j : Fin 5, (KEY_Update (heldInput i) now s).keyLongPressed j = false := by
      intro j
      by_cases hj : j = i
      · subst hj; exact harm.2.2
      · exact (hoth1 j hj).2.2
    have hsr1 : (KEY_Update (heldInput i) now s).sendRelease = false := hph.2.2
    have hsend : KEY_Send (KEY_Update (heldInput i) now s)
        = (KEY_Update (heldInput i) now s, []) := by
      refine KEY_Send_quiet _ (fun j => Or.inl ?_) hsr1
      by_cases hj : j = i
      · subst hj; rw [hki]
      · rw [(hoth1 j hj).1]
    rw [loopIter_as_modeCase i _ now wi s hlat he, hsend,
      modeCase_normal_enabled _ hm1 he1]
    refine ⟨⟨hm1, rfl, hpr1, hb1, fun j hj => ⟨(hoth1 j hj).1, (hoth1 j hj).2.1⟩, hlat,
      hki, ?_, ?_, hsr1⟩, by simp [phaseOut, nextAL]⟩
    · rw [harm.2.1]; exact hn1
    · rw [harm.2.1]; exact hn2
  · -- phase 1 → 1
    have hwin := KEY_Update_held_window i now T s hph.2.1 hph.2.2.1 hn1 hn2 (hl i)
    have hki : (KEY_Update (heldInput i) now s).keys i = ⟨true, false, false⟩ := by
      rw [hwin.1, hph.1]
    have hlat : ∀ j : Fin 5, (KEY_Update (heldInput i) now s).keyLongPressed j = false := by
      intro j
      by_cases hj : j = i
      · subst hj; exact hwin.2.2.2
      · exact (hoth1 j hj).2.2
    have hsr1 : (KEY_Update (heldInput i) now s).sendRelease = false := hph.2.2.2
    have hsend : KEY_Send (KEY_Update (heldInput i) now s)
        = (KEY_Update (heldInput i) now s, []) := by
      refine KEY_Send_quiet _ (fun j => Or.inl ?_) hsr1
      by_cases hj : j = i
      · subst hj; rw [hki]
      · rw [(hoth1 j hj).1]
    rw [loopIter_as_modeCase i _ now wi s hlat he, hsend,
      modeCase_normal_enabled _ hm1 he1]
    exact ⟨⟨hm1, rfl, hpr1, hb1, fun j hj => ⟨(hoth1 j hj).1, (hoth1 j hj).2.1⟩, hlat,
      hki, hwin.2.1, hwin.2.2.1, hsr1⟩, by simp [phaseOut, nextAL]⟩
  · -- phase 2 → 3: the pending report goes out
    have hwin := KEY_Update_held_window i now T s hph.2.1 hph.2.2.1 hn1 hn2 (hl i)
    have hki : (KEY_Update (heldInput i) now s).keys i = ⟨true, true, false⟩ := by
      rw [hwin.1, hph.1]
    have hlat : ∀ j : Fin 5, (KEY_Update (heldInput i) now s).keyLongPressed j = false := by
      intro j
      by_cases hj : j = i
      · subst hj; exact hwin.2.2.2
      · exact (hoth1 j hj).2.2
    have hsr1 : (KEY_Update (heldInput i) now s).sendRelease = false := hph.2.2.2
    have hsend := KEY_Send_single_fire (KEY_Update (heldInput i) now s) i
      (by rw [hki]) (by rw [hki])
      (fun j hj => by rw [(hoth1 j hj).1]) hsr1
    have hval : ({ isPressed := ((KEY_Update (heldInput i) now s).keys i).isPressed, shouldSend := false, isReleased := true } : KeyState) = ⟨true, false, true⟩ := by
      rw [hki]
    rw [loopIter_as_modeCase i _ now wi s hlat he, hsend, hval] at *
    rw [modeCase_normal_enabled _ hm1 he1]
    refine ⟨⟨hm1, rfl, hpr1, ?_, ?_, hlat, ?_, hwin.2.1, hwin.2.2.1, hsr1⟩, ?_⟩
    · exact hb1
    · intro j hj
      refine ⟨?_, (hoth1 j hj).2.1⟩
      show Function.update _ i _ j = _
      rw [Function.update_noteq hj]
      exact (hoth1 j hj).1
    · show Function.update _ i _ i = _
      rw [Function.update_same]
    · show phaseOut i B0 2 ++ [Emit.key i ((KEY_Update (heldInput i) now s).bufs i)]
        = phaseOut i B0 3
      rw [hb1 i]
      simp [phaseOut]
  · -- phase 3 → 3
    have hwin := KEY_Update_held_window i now T s hph.2.1 hph.2.2.1 hn1 hn2 (hl i)
    have hki : (KEY_Update (heldInput i) now s).keys i = ⟨true, false, true⟩ := by
      rw [hwin.1, hph.1]
    have hlat : ∀ j : Fin 5, (KEY_Update (heldInput i) now s).keyLongPressed j = false := by
      intro j
      by_cases hj : j = i
      · subst hj; exact hwin.2.2.2
      · exact (hoth1 j hj).2.2
    have hsr1 : (KEY_Update (heldInput i) now s).sendRelease = false := hph.2.2.2
    have hsend : KEY_Send (KEY_Update (heldInput i) now s)
        = (KEY_Update (heldInput i) now s, []) := by
      refine KEY_Send_quiet _ (fun j => Or.inl ?_) hsr1
      by_cases hj : j = i
      · subst hj; rw [hki]
      · rw [(hoth1 j hj).1]
    rw [loopIter_as_modeCase i _ now wi s hlat he, hsend,
      modeCase_normal_enabled _ hm1 he1]
    exact ⟨⟨hm1, rfl, hpr1, hb1, fun j hj => ⟨(hoth1 j hj).1, (hoth1 j hj).2.1⟩, hlat,
      hki, hwin.2.1, hwin.2.2.1, hsr1⟩, by simp [phaseOut, nextAL]⟩


lemma loopStepB (i : Fin 5) (T : ℕ) (B0 : Fin 5 → List ℕ) (pr : ℕ) (p : ℕ) (s : SysState)
    (now : ℕ) (wi : List ((Fin 5 → Bool) × ℕ))
    (hp2 : 2 ≤ p) (hp : p ≤ 6) (h : pressPhase i T B0 pr p s) :
    pressPhase i T B0 pr (nextBL p) (loopIter true noInput now wi s).1
    ∧ phaseOut i B0 p ++ (loopIter true noInput now wi s).2
        = phaseOut i B0 (nextBL p) := by
  obtain ⟨hm, he, hpr, hb, hoth, hl, hph⟩ := h
  have hoth1 : ∀ j : Fin 5, j ≠ i →
      (KEY_Update noInput now s).keys j = ⟨false, false, false⟩
      ∧ (KEY_Update noInput now s).keyPressStartTime j = 0
      ∧ (KEY_Update noInput now s).keyLongPressed j = false :=
    fun j hj => KEY_Update_released_other i j now s (hoth j hj).1 (hoth j hj).2 (hl j)
  have hrel := KEY_Update_released_i i now s (hl i)
  have hm1 : (KEY_Update noInput now s).currentMode = SystemMode.MODE_NORMAL := hm
  have he1 : (KEY_Update noInput now s).enableKey = true := he
  have hpr1 : (KEY_Update noInput now s).currentPreset = pr := hpr
  have hb1 : ∀ j : Fin 5, (KEY_Update noInput now s).bufs j = B0 j := hb
  have hlat : ∀ j : Fin 5, (KEY_Update noInput now s).keyLongPressed j = false := by
    intro j
    by_cases hj : j = i
    · subst hj; exact hrel.2.2
    · exact (hoth1 j hj).2.2
  have hoths : ∀ j : Fin 5, j ≠ i →
      (KEY_Update noInput now s).keys j = (⟨false, false, false⟩ : KeyState)
      ∧ (KEY_Update noInput now s).keyPressStartTime j = 0 :=
    fun j hj => ⟨(hoth1 j hj).1, (hoth1 j hj).2.1⟩
  interval_cases p
  · -- phase 2 → 4: release seen, but the pending press report goes out now
    have hki : (KEY_Update noInput now s).keys i = ⟨false, true, false⟩ := by
      rw [hrel.1, hph.1]
    have hsr1 : (KEY_Update noInput now s).sendRelease = false := hph.2.2.2
    have hsend := KEY_Send_single_fire (KEY_Update noInput now s) i
      (by rw [hki]) (by rw [hki])
      (fun j hj => by rw [(hoth1 j hj).1]) hsr1
    have hval : ({ isPressed := ((KEY_Update noInput now s).keys i).isPressed, shouldSend := false, isReleased := true } : KeyState) = ⟨false, false, true⟩ := by
      rw [hki]
    rw [loopIter_as_modeCase i _ now wi s hlat he, hsend, hval] at *
    rw [modeCase_normal_enabled _ hm1 he1]
    refine ⟨⟨hm1, rfl, hpr1, hb1, ?_, hlat, ?_, hrel.2.1, hsr1⟩, ?_⟩
    · intro j hj
      refine ⟨?_, (hoths j hj).2⟩
      show Function.update _ i _ j = _
      rw [Function.update_noteq hj]
      exact (hoths j hj).1
    · show Function.update _ i _ i = _
      rw [Function.update_same]
    · show phaseOut i B0 2 ++ [Emit.key i ((KEY_Update noInput now s).bufs i)]
        = phaseOut i B0 (nextBL 2)
      rw [hb1 i]
      simp [phaseOut, nextBL]
  · -- phase 3 → 4
    have hki : (KEY_Update noInput now s).keys i = ⟨false, false, true⟩ := by
      rw [hrel.1, hph.1]
    have hsr1 : (KEY_Update noInput now s).sendRelease = false := hph.2.2.2
    have hsend : KEY_Send (KEY_Update noInput now s) = (KEY_Update noInput now s, []) := by
      refine KEY_Send_quiet _ (fun j => Or.inl ?_) hsr1
      by_cases hj : j = i
      · subst hj; rw [hki]
      · rw [(hoth1 j hj).1]
    rw [loopIter_as_modeCase i _ now wi s hlat he, hsend,
      modeCase_normal_enabled _ hm1 he1]
    exact ⟨⟨hm1, rfl, hpr1, hb1, hoths, hlat, hki, hrel.2.1, hsr1⟩,
      by simp [phaseOut, nextBL]⟩
  · -- phase 4 → 4
    have hki : (KEY_Update noInput now s).keys i = ⟨false, false, true⟩ := by
      rw [hrel.1, hph.1]
    have hsr1 : (KEY_Update noInput now s).sendRelease = false := hph.2.2
    have hsend : KEY_Send (KEY_Update noInput now s) = (KEY_Update noInput now s, []) := by
      refine KEY_Send_quiet _ (fun j => Or.inl ?_) hsr1
      by_cases hj : j = i
      · subst hj; rw [hki]
      · rw [(hoth1 j hj).1]
    rw [loopIter_as_modeCase i _ now wi s hlat he, hsend,
      modeCase_normal_enabled _ hm1 he1]
    exact ⟨⟨hm1, rfl, hpr1, hb1, hoths, hlat, hki, hrel.2.1, hsr1⟩,
      by simp [phaseOut, nextBL]⟩
  · -- phase 5 → 6: the all-released report goes out
    have hki : (KEY_Update noInput now s).keys i = ⟨false, false, false⟩ := by
      rw [hrel.1, hph.1]
    have hsr1 : (KEY_Update noInput now s).sendRelease = true := hph.2.2
    have hsend : KEY_Send (KEY_Update noInput now s)
        = ({ KEY_Update noInput now s with sendRelease := false }, [Emit.rel]) := by
      refine KEY_Send_release_only _ (fun j => ?_) hsr1
      by_cases hj : j = i
      · subst hj; rw [hki]
      · rw [(hoth1 j hj).1]
    rw [loopIter_as_modeCase i _ now wi s hlat he, hsend,
      modeCase_normal_enabled _ (by exact hm1) (by exact he1)]
    refine ⟨⟨hm1, rfl, hpr1, hb1, hoths, hlat, hki, hrel.2.1, rfl⟩,
      by simp [phaseOut, nextBL]⟩
  · -- phase 6 → 6
    have hki : (KEY_Update noInput now s).keys i = ⟨false, false, false⟩ := by
      rw [hrel.1, hph.1]
    have hsr1 : (KEY_Update noInput now s).sendRelease = false := hph.2.2
    have hsend : KEY_Send (KEY_Update noInput now s) = (KEY_Update noInput now s, []) := by
      refine KEY_Send_quiet _ (fun j => Or.inl ?_) hsr1
      by_cases hj : j = i
      · subst hj; rw [hki]
      · rw [(hoth1 j hj).1]
    rw [loopIter_as_modeCase i _ now wi s hlat he, hsend,
      modeCase_normal_enabled _ hm1 he1]
    exact ⟨⟨hm1, rfl, hpr1, hb1, hoths, hlat, hki, hrel.2.1, hsr1⟩,
      by simp [phaseOut, nextBL]⟩


lemma nextT_le (p : ℕ) : p ≤ nextT p := by
  unfold nextT
  split_ifs <;> omega

lemma nextT_le3 {p : ℕ} (hp : p ≤ 3) : nextT p ≤ 3 := by
  unfold nextT
  split_ifs <;> omega

lemma nextT_le6 {p : ℕ} (hp : p ≤ 6) : nextT p ≤ 6 := by
  unfold nextT
  split_ifs <;> omega

lemma nextT_ge2 {p : ℕ} (hp : 1 ≤ p) : 2 ≤ nextT p := by
  unfold nextT
  split_ifs <;> omega

lemma nextT_ge5 {p : ℕ} (hp : 4 ≤ p) : 5 ≤ nextT p := by
  unfold nextT
  split_ifs <;> omega

lemma nextAL_le (p : ℕ) : p ≤ nextAL p := by
  unfold nextAL
  split_ifs <;> omega

lemma nextAL_le3 {p : ℕ} (hp : p ≤ 3) : nextAL p ≤ 3 := by
  unfold nextAL
  split_ifs <;> omega

lemma nextAL_ge1 (p : ℕ) : 1 ≤ nextAL p := by
  unfold nextAL
  split_ifs <;> omega

lemma nextBL_eq4 {p : ℕ} (hp2 : 2 ≤ p) (hp3 : p ≤ 3) : nextBL p = 4 := by
  unfold nextBL
  split_ifs <;> omega

lemma nextBL_le (p : ℕ) : p ≤ nextBL p := by
  unfold nextBL
  split_ifs <;> omega

lemma nextBL_le6 {p : ℕ} (hp : p ≤ 6) : nextBL p ≤ 6 := by
  unfold nextBL
  split_ifs <;> omega

lemma nextBL_eq6 {p : ℕ} (hp : 5 ≤ p) (hp6 : p ≤ 6) : nextBL p = 6 := by
  unfold nextBL
  split_ifs <;> omega

lemma phaseOut_nextT (i : Fin 5) (B0 : Fin 5 → List ℕ) (p : ℕ) :
    phaseOut i B0 (nextT p) = phaseOut i B0 p := by
  unfold nextT phaseOut
  split_ifs <;> first | rfl | omega

lemma runTrace_tick (s : SysState) : runTrace [Ev.tick] s = (KEY_Detect s, []) := by
  simp [runTrace, step]

lemma runTrace_loop (conn : Bool) (input : Fin 5 → Bool) (now : ℕ)
    (wi : List ((Fin 5 → Bool) × ℕ)) (s : SysState) :
    runTrace [Ev.loop conn input now wi] s = loopIter conn input now wi s := by
  simp [runTrace, step]

lemma phase_run_append (i : Fin 5) (T : ℕ) (B0 : Fin 5 → List ℕ) (pr : ℕ)
    (l1 l2 : List Ev) (s : SysState) (p q r : ℕ)
    (h1 : pressPhase i T B0 pr q (runTrace l1 s).1
      ∧ phaseOut i B0 p ++ (runTrace l1 s).2 = phaseOut i B0 q)
    (h2 : pressPhase i T B0 pr r (runTrace l2 (runTrace l1 s).1).1
      ∧ phaseOut i B0 q ++ (runTrace l2 (runTrace l1 s).1).2 = phaseOut i B0 r) :
    pressPhase i T B0 pr r (runTrace (l1 ++ l2) s).1
    ∧ phaseOut i B0 p ++ (runTrace (l1 ++ l2) s).2 = phaseOut i B0 r := by
  rw [runTrace_append]
  refine ⟨h2.1, ?_⟩
  rw [← List.append_assoc, h1.2, h2.2]

lemma runA (i : Fin 5) (T : ℕ) (B0 : Fin 5 → List ℕ) (pr : ℕ) :
    ∀ (evs : List Ev), (∀ e ∈ evs, AEv i T e) →
    ∀ (p : ℕ) (s : SysState), p ≤ 3 → pressPhase i T B0 pr p s →
    ∃ q, p ≤ q ∧ q ≤ 3 ∧ pressPhase i T B0 pr q (runTrace evs s).1
      ∧ phaseOut i B0 p ++ (runTrace evs s).2 = phaseOut i B0 q := by
  intro evs
  induction evs with
  | nil =>
    intro _ p s hp h
    exact ⟨p, le_refl _, hp, h, by simp [runTrace]⟩
  | cons e evs ih =>
    intro hall p s hp h
    cases e with
    | tick =>
      have h1 := tickStep i T B0 pr p s (by omega) h
      obtain ⟨q, hq1, hq2, hq3, hq4⟩ :=
        ih (fun x hx => hall x (List.mem_cons_of_mem _ hx)) (nextT p) (KEY_Detect s)
          (nextT_le3 hp) h1
      refine ⟨q, le_trans (nextT_le p) hq1, hq2, ?_, ?_⟩
      · simpa [runTrace, step] using hq3
      · have hpo := phaseOut_nextT i B0 p
        simp only [runTrace, step]
        rw [List.nil_append, ← hpo]
        exact hq4
    | loop conn input now wi =>
      obtain ⟨hc, hin, hn1, hn2⟩ := hall _ (List.mem_cons_self _ _)
      subst hc
      subst hin
      have h1 := loopStepA i T B0 pr p s now wi hn1 hn2 hp h
      obtain ⟨q, hq1, hq2, hq3, hq4⟩ :=
        ih (fun x hx => hall x (List.mem_cons_of_mem _ hx)) (nextAL p) _
          (nextAL_le3 hp) h1.1
      refine ⟨q, le_trans (nextAL_le p) hq1, hq2, ?_, ?_⟩
      · simpa [runTrace, step] using hq3
      · simp only [runTrace, step]
        rw [← List.append_assoc, h1.2]
        exact hq4

lemma runB (i : Fin 5) (T : ℕ) (B0 : Fin 5 → List ℕ) (pr : ℕ) :
    ∀ (evs : List Ev), (∀ e ∈ evs, BEv e) →
    ∀ (p : ℕ) (s : SysState), 2 ≤ p → p ≤ 6 → pressPhase i T B0 pr p s →
    ∃ q, p ≤ q ∧ q ≤ 6 ∧ pressPhase i T B0 pr q (runTrace evs s).1
      ∧ phaseOut i B0 p ++ (runTrace evs s).2 = phaseOut i B0 q := by
  intro evs
  induction evs with
  | nil =>
    intro _ p s hp2 hp h
    exact ⟨p, le_refl _, hp, h, by simp [runTrace]⟩
  | cons e evs ih =>
    intro hall p s hp2 hp h
    cases e with
    | tick =>
      have h1 := tickStep i T B0 pr p s hp h
      obtain ⟨q, hq1, hq2, hq3, hq4⟩ :=
        ih (fun x hx => hall x (List.mem_cons_of_mem _ hx)) (nextT p) (KEY_Detect s)
          (le_trans hp2 (nextT_le p)) (nextT_le6 hp) h1
      refine ⟨q, le_trans (nextT_le p) hq1, hq2, ?_, ?_⟩
      · simpa [runTrace, step] using hq3
      · have hpo := phaseOut_nextT i B0 p
        simp only [runTrace, step]
        rw [List.nil_append, ← hpo]
        exact hq4
    | loop conn input now wi =>
      obtain ⟨hc, hin⟩ := hall _ (List.mem_cons_self _ _)
      subst hc
      subst hin
      have h1 := loopStepB i T B0 pr p s now wi hp2 hp h
      obtain ⟨q, hq1, hq2, hq3, hq4⟩ :=
        ih (fun x hx => hall x (List.mem_cons_of_mem _ hx)) (nextBL p) _
          (by have := nextBL_le p; omega) (nextBL_le6 hp) h1.1
      refine ⟨q, le_trans (nextBL_le p) hq1, hq2, ?_, ?_⟩
      · simpa [runTrace, step] using hq3
      · simp only [runTrace, step]
        rw [← List.append_assoc, h1.2]
        exact hq4


/-- C3. A single press-then-release of one button in `MODE_NORMAL` with
the transport connected emits exactly one report — that button's active
buffer, non-zero after setup — followed by exactly one all-zero report,
no matter how many scanner ticks and dispatcher cycles surround it: the
press phase is any interleaving `A1`, a loop iteration that sees the
press, ticks and iterations `A2`/`A3` with at least one tick, and the
release phase any interleaving with at least one loop iteration, one
tick and one further loop iteration. -/
theorem single_press_framing (i : Fin 5) (T : ℕ) (s0 : SysState)
    (A1 A2 A3 B2 B3 B4 : List Ev) (tA u1 u2 : ℕ)
    (w1 w2 w3 : List ((Fin 5 → Bool) × ℕ))
    (hA1 : ∀ e ∈ A1, AEv i T e) (hA2 : ∀ e ∈ A2, AEv i T e) (hA3 : ∀ e ∈ A3, AEv i T e)
    (hB2 : ∀ e ∈ B2, BEv e) (hB3 : ∀ e ∈ B3, BEv e) (hB4 : ∀ e ∈ B4, BEv e)
    (ht1 : T ≤ tA) (ht2 : tA ≤ T + LONG_PRESS_TIME)
    (h0 : pressPhase i T s0.bufs s0.currentPreset 0 s0)
    (hnz : s0.bufs i ≠ List.replicate 8 0) :
    (runTrace (A1 ++ [Ev.loop true (heldInput i) tA w1] ++ A2 ++ [Ev.tick] ++ A3
      ++ [Ev.loop true noInput u1 w2] ++ B2 ++ [Ev.tick] ++ B3
      ++ [Ev.loop true noInput u2 w3] ++ B4) s0).2
      = [Emit.key i (s0.bufs i), Emit.rel]
    ∧ s0.bufs i ≠ List.replicate 8 0 := by
  refine ⟨?_, hnz⟩
  obtain ⟨q1, hq10, hq13, hinv1, hout1⟩ :=
    runA i T s0.bufs s0.currentPreset A1 hA1 0 s0 (by omega) h0
  have hstep1 := loopStepA i T s0.bufs s0.currentPreset q1 (runTrace A1 s0).1
    tA w1 ht1 ht2 hq13 hinv1
  have acc2 : pressPhase i T s0.bufs s0.currentPreset (nextAL q1)
      (runTrace [Ev.loop true (heldInput i) tA w1] (runTrace A1 s0).1).1
      ∧ phaseOut i s0.bufs q1
          ++ (runTrace [Ev.loop true (heldInput i) tA w1] (runTrace A1 s0).1).2
        = phaseOut i s0.bufs (nextAL q1) := by
    rw [runTrace_loop]
    exact hstep1
  have accP2 := phase_run_append i T s0.bufs s0.currentPreset A1
    [Ev.loop true (heldInput i) tA w1] s0 0 q1 (nextAL q1) ⟨hinv1, hout1⟩ acc2
  have hp21 : 1 ≤ nextAL q1 := nextAL_ge1 q1
  have hp23 : nextAL q1 ≤ 3 := nextAL_le3 hq13
  obtain ⟨q2, hq21, hq23, hinv2, hout2⟩ :=
    runA i T s0.bufs s0.currentPreset A2 hA2 (nextAL q1) _ hp23 accP2.1
  have accP3 := phase_run_append i T s0.bufs s0.currentPreset
    (A1 ++ [Ev.loop true (heldInput i) tA w1]) A2 s0 0 (nextAL q1) q2 accP2 ⟨hinv2, hout2⟩
  have hstep2 := tickStep i T s0.bufs s0.currentPreset q2 _ (by omega) accP3.1
  have acc4 : pressPhase i T s0.bufs s0.currentPreset (nextT q2)
      (runTrace [Ev.tick]
        (runTrace (A1 ++ [Ev.loop true (heldInput i) tA w1] ++ A2) s0).1).1
      ∧ phaseOut i s0.bufs q2
          ++ (runTrace [Ev.tick]
            (runTrace (A1 ++ [Ev.loop true (heldInput i) tA w1] ++ A2) s0).1).2
        = phaseOut i s0.bufs (nextT q2) := by
    rw [runTrace_tick]
    exact ⟨hstep2, by rw [List.append_nil, phaseOut_nextT]⟩
  have accP4 := phase_run_append i T s0.bufs s0.currentPreset
    (A1 ++ [Ev.loop true (heldInput i) tA w1] ++ A2) [Ev.tick] s0 0 q2 (nextT q2)
    accP3 acc4
  have hp42 : 2 ≤ nextT q2 := nextT_ge2 (le_trans hp21 hq21)
  have hp43 : nextT q2 ≤ 3 := nextT_le3 hq23
  obtain ⟨q4, hq41, hq43, hinv4, hout4⟩ :=
    runA i T s0.bufs s0.currentPreset A3 hA3 (nextT q2) _ hp43 accP4.1
  have accP5 := phase_run_append i T s0.bufs s0.currentPreset
    (A1 ++ [Ev.loop true (heldInput i) tA w1] ++ A2 ++ [Ev.tick]) A3 s0 0
    (nextT q2) q4 accP4 ⟨hinv4, hout4⟩
  have hstep3 := loopStepB i T s0.bufs s0.currentPreset q4 _ u1 w2
    (le_trans hp42 hq41) (by omega) accP5.1
  have h4eq : nextBL q4 = 4 := nextBL_eq4 (le_trans hp42 hq41) hq43
  have acc6 : pressPhase i T s0.bufs s0.currentPreset (nextBL q4)
      (runTrace [Ev.loop true noInput u1 w2]
        (runTrace (A1 ++ [Ev.loop true (heldInput i) tA w1] ++ A2 ++ [Ev.tick] ++ A3) s0).1).1
      ∧ phaseOut i s0.bufs q4
          ++ (runTrace [Ev.loop true noInput u1 w2]
            (runTrace (A1 ++ [Ev.loop true (heldInput i) tA w1] ++ A2 ++ [Ev.tick] ++ A3) s0).1).2
        = phaseOut i s0.bufs (nextBL q4) := by
    rw [runTrace_loop]
    exact hstep3
  have accP6 := phase_run_append i T s0.bufs s0.currentPreset
    (A1 ++ [Ev.loop true (heldInput i) tA w1] ++ A2 ++ [Ev.tick] ++ A3)
    [Ev.loop true noInput u1 w2] s0 0 q4 (nextBL q4) accP5 acc6
  rw [h4eq] at accP6
  obtain ⟨q5, hq51, hq56, hinv5, hout5⟩ :=
    runB i T s0.bufs s0.currentPreset B2 hB2 4 _ (by omega) (by omega) accP6.1
  have accP7 := phase_run_append i T s0.bufs s0.currentPreset
    (A1 ++ [Ev.loop true (heldInput i) tA w1] ++ A2 ++ [Ev.tick] ++ A3
      ++ [Ev.loop true noInput u1 w2]) B2 s0 0 4 q5 accP6 ⟨hinv5, hout5⟩
  have hstep4 := tickStep i T s0.bufs s0.currentPreset q5 _ hq56 accP7.1
  have acc8 : pressPhase i T s0.bufs s0.currentPreset (nextT q5)
      (runTrace [Ev.tick]
        (runTrace (A1 ++ [Ev.loop true (heldInput i) tA w1] ++ A2 ++ [Ev.tick] ++ A3
          ++ [Ev.loop true noInput u1 w2] ++ B2) s0).1).1
      ∧ phaseOut i s0.bufs q5
          ++ (runTrace [Ev.tick]
            (runTrace (A1 ++ [Ev.loop true (heldInput i) tA w1] ++ A2 ++ [Ev.tick] ++ A3
              ++ [Ev.loop true noInput u1 w2] ++ B2) s0).1).2
        = phaseOut i s0.bufs (nextT q5) := by
    rw [runTrace_tick]
    exact ⟨hstep4, by rw [List.append_nil, phaseOut_nextT]⟩
  have accP8 := phase_run_append i T s0.bufs s0.currentPreset
    (A1 ++ [Ev.loop true (heldInput i) tA w1] ++ A2 ++ [Ev.tick] ++ A3
      ++ [Ev.loop true noInput u1 w2] ++ B2) [Ev.tick] s0 0 q5 (nextT q5) accP7 acc8
  have hp85 : 5 ≤ nextT q5 := nextT_ge5 hq51
  have hp86 : nextT q5 ≤ 6 := nextT_le6 hq56
  obtain ⟨q6, hq61, hq66, hinv6, hout6⟩ :=
    runB i T s0.bufs s0.currentPreset B3 hB3 (nextT q5) _ (by omega) hp86 accP8.1
  have accP9 := phase_run_append i T s0.bufs s0.currentPreset
    (A1 ++ [Ev.loop true (heldInput i) tA w1] ++ A2 ++ [Ev.tick] ++ A3
      ++ [Ev.loop true noInput u1 w2] ++ B2 ++ [Ev.tick]) B3 s0 0 (nextT q5) q6
    accP8 ⟨hinv6, hout6⟩
  have hstep5 := loopStepB i T s0.bufs s0.currentPreset q6 _ u2 w3
    (by omega) hq66 accP9.1
  have h6eq : nextBL q6 = 6 := nextBL_eq6 (le_trans hp85 hq61) hq66
  have acc10 : pressPhase i T s0.bufs s0.currentPreset (nextBL q6)
      (runTrace [Ev.loop true noInput u2 w3]
        (runTrace (A1 ++ [Ev.loop true (heldInput i) tA w1] ++ A2 ++ [Ev.tick] ++ A3
          ++ [Ev.loop true noInput u1 w2] ++ B2 ++ [Ev.tick] ++ B3) s0).1).1
      ∧ phaseOut i s0.bufs q6
          ++ (runTrace [Ev.loop true noInput u2 w3]
            (runTrace (A1 ++ [Ev.loop true (heldInput i) tA w1] ++ A2 ++ [Ev.tick] ++ A3
              ++ [Ev.loop true noInput u1 w2] ++ B2 ++ [Ev.tick] ++ B3) s0).1).2
        = phaseOut i s0.bufs (nextBL q6) := by
    rw [runTrace_loop]
    exact hstep5
  have accP10 := phase_run_append i T s0.bufs s0.currentPreset
    (A1 ++ [Ev.loop true (heldInput i) tA w1] ++ A2 ++ [Ev.tick] ++ A3
      ++ [Ev.loop true noInput u1 w2] ++ B2 ++ [Ev.tick] ++ B3)
    [Ev.loop true noInput u2 w3] s0 0 q6 (nextBL q6) accP9 acc10
  rw [h6eq] at accP10
  obtain ⟨q7, hq71, hq76, hinv7, hout7⟩ :=
    runB i T s0.bufs s0.currentPreset B4 hB4 6 _ (by omega) (by omega) accP10.1
  have accP11 := phase_run_append i T s0.bufs s0.currentPreset
    (A1 ++ [Ev.loop true (heldInput i) tA w1] ++ A2 ++ [Ev.tick] ++ A3
      ++ [Ev.loop true noInput u1 w2] ++ B2 ++ [Ev.tick] ++ B3
      ++ [Ev.loop true noInput u2 w3]) B4 s0 0 6 q7 accP10 ⟨hinv7, hout7⟩
  have hq7 : q7 = 6 := le_antisymm hq76 hq71
  rw [hq7] at accP11
  have hfinal := accP11.2
  rw [show phaseOut i s0.bufs 0 = [] from rfl, List.nil_append] at hfinal
  rw [hfinal]
  rfl


/-- C3 witness: button 4 pressed at 10 ms, reported, released before
2000 ms; the whole run emits exactly its press report then the all-zero
report. -/
theorem single_press_framing_witness :
    (runTrace ([] ++ [Ev.loop true (heldInput 3) 10 []] ++ [] ++ [Ev.tick] ++ []
      ++ [Ev.loop true noInput 2000 []] ++ [] ++ [Ev.tick] ++ []
      ++ [Ev.loop true noInput 2010 []] ++ []) initState).2
      = [Emit.key 3 (initState.bufs 3), Emit.rel]
    ∧ initState.bufs 3 ≠ List.replicate 8 0 :=
  single_press_framing 3 0 initState [] [] [] [] [] [] 10 2000 2010 [] [] []
    (by simp) (by simp) (by simp) (by simp) (by simp) (by simp)
    (by decide) (by decide)
    ⟨rfl, rfl, rfl, fun j => rfl, fun j hj => ⟨rfl, rfl⟩, fun j => rfl, rfl, rfl, rfl⟩
    (by decide)

end Keypad
